import Mathlib

/-!
Verification development for the cocos-trading-api order-execution and
portfolio-valuation engine.

The definitions below are a shallow embedding of the TypeScript sources:
`OrderService` (order execution, cash operations, cancellation),
`OrderRepository` (ledger access: available-cash and position aggregation,
cursor pagination) and `PortfolioService` (position replay and enrichment).
Monetary values (PostgreSQL NUMERIC handled through Decimal.js in the source)
are modelled as exact rationals; order sizes and replayed quantities are
integers (JavaScript numbers that may go negative); the order ledger is a
list of rows; database transactions are modelled by explicit ledger passing,
with the row-lock serialization of concurrent transactions modelled as
sequential execution.  A caller-supplied price that is absent (`undefined`
in JavaScript, stringified to the invalid numeric string "undefined" by the
source) is modelled as `none`; operations that would throw on that invalid
value return an `internal` error.
-/

namespace Cocos

/-- Order side, from `ORDER_SIDES` in the constants module. -/
inductive Side where
  | BUY
  | SELL
  | CASH_IN
  | CASH_OUT
deriving DecidableEq

/-- Order type (MARKET or LIMIT), from `ORDER_TYPES`. -/
inductive OrderType where
  | MARKET
  | LIMIT
deriving DecidableEq

/-- Order status, from `ORDER_STATUSES`. -/
inductive OrderStatus where
  | NEW
  | FILLED
  | REJECTED
  | CANCELLED
deriving DecidableEq

/-- A ledger row of the `orders` table.  `size` is the INTEGER column
(a JavaScript number, possibly negative on bad input), `price` the NUMERIC
column as an exact rational, `datetime` the creation timestamp used as the
pagination cursor and the economic-effect ordering key. -/
structure Order where
  id : Nat
  instrumentId : Nat
  userId : Nat
  size : Int
  price : ℚ
  type : OrderType
  side : Side
  status : OrderStatus
  datetime : Nat
deriving DecidableEq

/-- `ARS_INSTRUMENT_ID` from the constants module: the designated cash
instrument. -/
def ARS_INSTRUMENT_ID : Nat := 66

/-- Decimal.js `toDecimalPlaces(2)` with the default ROUND_HALF_UP mode
(round half away from zero). -/
def roundTo2 (q : ℚ) : ℚ :=
  if q < 0 then -(((Int.floor (-q * 100 + 1/2) : ℤ) : ℚ) / 100)
  else ((Int.floor (q * 100 + 1/2) : ℤ) : ℚ) / 100

/-- Signed cash effect of a single FILLED order, mirroring the CASE
expression of `OrderRepository.getUserAvailableCash` (the first two branches
test the ARS instrument, then BUY/SELL apply to any instrument). -/
def cashEffect (arsId : Nat) (o : Order) : ℚ :=
  if o.instrumentId = arsId ∧ o.side = Side.CASH_IN then (o.size : ℚ) * o.price
  else if o.instrumentId = arsId ∧ o.side = Side.CASH_OUT then -((o.size : ℚ) * o.price)
  else if o.side = Side.BUY then -((o.size : ℚ) * o.price)
  else if o.side = Side.SELL then (o.size : ℚ) * o.price
  else 0

/-- `OrderRepository.getUserAvailableCash`: the signed sum of the cash
effects of the user's FILLED orders.  The `FOR UPDATE` row locks of the
source serialize concurrent transactions; here the function reads the
current ledger directly. -/
def getUserAvailableCash (ledger : List Order) (userId arsId : Nat) : ℚ :=
  ((ledger.filter (fun o => decide (o.userId = userId ∧ o.status = OrderStatus.FILLED))).map
    (cashEffect arsId)).sum

/-- Signed share effect of one order row, from the CASE expression of
`OrderRepository.getUserPositionForInstrument`. -/
def positionEffect (o : Order) : Int :=
  if o.side = Side.BUY then o.size
  else if o.side = Side.SELL then -o.size
  else 0

/-- `OrderRepository.getUserPositionForInstrument`: net FILLED BUY/SELL
size for one user and instrument. -/
def getUserPositionForInstrument (ledger : List Order) (userId instrumentId : Nat) : Int :=
  ((ledger.filter (fun o =>
      decide (o.userId = userId ∧ o.instrumentId = instrumentId ∧
        o.status = OrderStatus.FILLED ∧ (o.side = Side.BUY ∨ o.side = Side.SELL)))).map
    positionEffect).sum

/-- Instrument reference data (`instruments` table row). -/
structure Instrument where
  ticker : String
  name : String
deriving DecidableEq

/-- Latest market-data snapshot for an instrument (`marketdata` row). -/
structure MarketData where
  close : ℚ
  previousClose : ℚ
deriving DecidableEq

/-- Read-only reference environment: existing users, instruments and the
latest market-data snapshot per instrument. -/
structure Env where
  users : List Nat
  instruments : List (Nat × Instrument)
  marketData : List (Nat × MarketData)

/-- `UserRepository.findUserById`, reduced to existence. -/
def findUserById (env : Env) (userId : Nat) : Bool :=
  env.users.contains userId

/-- `InstrumentRepository.findInstrumentById`. -/
def findInstrumentById (env : Env) (instrumentId : Nat) : Option Instrument :=
  (env.instruments.find? (fun p => p.1 == instrumentId)).map Prod.snd

/-- `MarketDataRepository.getLatestMarketDataForInstrument`. -/
def getLatestMarketDataForInstrument (env : Env) (instrumentId : Nat) : Option MarketData :=
  (env.marketData.find? (fun p => p.1 == instrumentId)).map Prod.snd

/-- `CreateOrderInput`: the structurally validated request passed into
`OrderService.executeOrder`.  Optional fields are `Option`; an absent
`price` models the JavaScript `undefined` that the LIMIT branch stringifies
into an invalid numeric string. -/
structure CreateOrderInput where
  userId : Nat
  instrumentId : Nat
  side : Side
  type : OrderType
  size : Option Int
  amount : Option ℚ
  price : Option ℚ

/-- Failure taxonomy: `notFound` and `businessRule` are the service's own
`NotFoundError`/`BusinessRuleError`; `internal` models an uncontrolled
exception escaping the transaction body (a Decimal.js conversion error or a
database type error), which rolls the transaction back. -/
inductive ExecError where
  | notFound (msg : String)
  | businessRule (msg : String)
  | internal (msg : String)
deriving DecidableEq

/-- Label used when interpolating a side into an error message. -/
def sideLabel : Side → String
  | Side.BUY => "BUY"
  | Side.SELL => "SELL"
  | Side.CASH_IN => "CASH_IN"
  | Side.CASH_OUT => "CASH_OUT"

/-- Label used when interpolating a status into an error message. -/
def statusLabel : OrderStatus → String
  | OrderStatus.NEW => "NEW"
  | OrderStatus.FILLED => "FILLED"
  | OrderStatus.REJECTED => "REJECTED"
  | OrderStatus.CANCELLED => "CANCELLED"

/-- Response of a successful `executeOrder` call: the persisted order plus
the derived `totalAmount = size × price` rounded to 2 places at the output
boundary. -/
structure OrderResponse where
  order : Order
  totalAmount : ℚ
deriving DecidableEq

/-- `OrderRepository.createOrder` inside the transaction, followed by the
response formatting of `OrderService`: appends a row with the next id and
the `NOW()` timestamp and computes `totalAmount`. -/
def persist (ledger : List Order) (now : Nat) (input : CreateOrderInput)
    (size : Int) (price : ℚ) (status : OrderStatus) : List Order × OrderResponse :=
  let o : Order :=
    { id := ledger.length + 1, instrumentId := input.instrumentId, userId := input.userId,
      size := size, price := price, type := input.type, side := input.side,
      status := status, datetime := now }
  (ledger ++ [o], { order := o, totalAmount := roundTo2 ((size : ℚ) * price) })

/-- `OrderService.validateOrder`: BUY requires cost = size × price not to
exceed the locked available cash, SELL requires size not to exceed the
locked position; other sides pass.  A BUY whose price is the invalid string
raises a Decimal conversion error.  Returns `some message` when the order
must be rejected, `none` when it is valid. -/
def validateOrder (ledger : List Order) (userId instrumentId : Nat) (side : Side)
    (size : Int) (price : Option ℚ) : Except ExecError (Option String) :=
  if side = Side.BUY then
    match price with
    | none => Except.error (ExecError.internal "DecimalError: Invalid argument")
    | some p =>
      let availableCash := getUserAvailableCash ledger userId ARS_INSTRUMENT_ID
      let orderCost := (size : ℚ) * p
      if availableCash < orderCost then
        Except.ok (some "Insufficient funds")
      else Except.ok none
  else if side = Side.SELL then
    let currentPosition := getUserPositionForInstrument ledger userId instrumentId
    if currentPosition < size then
      Except.ok (some "Insufficient shares")
    else Except.ok none
  else Except.ok none

/-- Steps 7–9 of `OrderService.executeOrder` once the size is resolved:
validate, persist REJECTED on a validation message, otherwise persist
FILLED (MARKET) or NEW (LIMIT).  Persisting with the invalid price string
fails in the database NUMERIC conversion. -/
def stockOrderWithSize (ledger : List Order) (now : Nat) (input : CreateOrderInput)
    (executionPrice : Option ℚ) (orderSize : Int) :
    Except ExecError (List Order × OrderResponse) :=
  match validateOrder ledger input.userId input.instrumentId input.side orderSize executionPrice with
  | Except.error e => Except.error e
  | Except.ok (some _msg) =>
    match executionPrice with
    | none => Except.error (ExecError.internal "invalid input syntax for type numeric")
    | some p => Except.ok (persist ledger now input orderSize p OrderStatus.REJECTED)
  | Except.ok none =>
    let orderStatus :=
      if input.type = OrderType.MARKET then OrderStatus.FILLED else OrderStatus.NEW
    match executionPrice with
    | none => Except.error (ExecError.internal "invalid input syntax for type numeric")
    | some p => Except.ok (persist ledger now input orderSize p orderStatus)

/-- Step 6 of `OrderService.executeOrder`: take the caller's `size`, or
derive it as `floor(amount ÷ executionPrice)`; a floored size of 0 persists
a REJECTED order with size 0 and returns success.  `Decimal` construction
or division on an absent operand throws. -/
def resolveSizeAndRun (ledger : List Order) (now : Nat) (input : CreateOrderInput)
    (executionPrice : Option ℚ) : Except ExecError (List Order × OrderResponse) :=
  match input.size with
  | some s => stockOrderWithSize ledger now input executionPrice s
  | none =>
    match input.amount with
    | none => Except.error (ExecError.internal "DecimalError: Invalid argument")
    | some a =>
      match executionPrice with
      | none => Except.error (ExecError.internal "DecimalError: Invalid argument")
      | some p =>
        let orderSize : Int := Int.floor (a / p)
        if orderSize = 0 then
          Except.ok (persist ledger now input 0 p OrderStatus.REJECTED)
        else stockOrderWithSize ledger now input (some p) orderSize

/-- The REJECTED row written by `OrderService.validateCashOutFunds`: the
instrument, price 1, MARKET type and CASH_OUT side are hardcoded there. -/
def persistCashRejected (ledger : List Order) (now : Nat) (userId : Nat) (size : Int) :
    List Order × OrderResponse :=
  let o : Order :=
    { id := ledger.length + 1, instrumentId := ARS_INSTRUMENT_ID, userId := userId,
      size := size, price := 1, type := OrderType.MARKET, side := Side.CASH_OUT,
      status := OrderStatus.REJECTED, datetime := now }
  (ledger ++ [o], { order := o, totalAmount := roundTo2 ((size : ℚ) * 1) })

/-- `OrderService.executeCashOperation` once the size is known: a CASH_OUT
exceeding the locked available cash persists REJECTED (a successful call);
otherwise the cash order is persisted FILLED at price 1 with the input's
type. -/
def cashOpWithSize (ledger : List Order) (now : Nat) (input : CreateOrderInput)
    (orderSize : Int) : Except ExecError (List Order × OrderResponse) :=
  if input.side = Side.CASH_OUT then
    let availableCash := getUserAvailableCash ledger input.userId ARS_INSTRUMENT_ID
    if availableCash < (orderSize : ℚ) * 1 then
      Except.ok (persistCashRejected ledger now input.userId orderSize)
    else
      Except.ok (persist ledger now input orderSize 1 OrderStatus.FILLED)
  else
    Except.ok (persist ledger now input orderSize 1 OrderStatus.FILLED)

/-- `OrderService.executeCashOperation`: requires the ARS instrument, takes
size directly or as `floor(amount ÷ 1)`, validates CASH_OUT funds and
persists the cash order. -/
def executeCashOperation (ledger : List Order) (now : Nat) (input : CreateOrderInput) :
    Except ExecError (List Order × OrderResponse) :=
  if input.instrumentId ≠ ARS_INSTRUMENT_ID then
    Except.error (ExecError.businessRule
      (sideLabel input.side ++ " operations must use ARS instrument (ID 66)"))
  else
    match input.size with
    | some s => cashOpWithSize ledger now input s
    | none =>
      match input.amount with
      | none => Except.error (ExecError.internal "DecimalError: Invalid argument")
      | some a => cashOpWithSize ledger now input (Int.floor (a / 1))

/-- Step 5 of `OrderService.executeOrder`: the execution price is the
latest close for a MARKET order and the caller's price for a LIMIT order;
`none` models the invalid string produced by stringifying an absent LIMIT
price. -/
def resolvedExecutionPrice (env : Env) (input : CreateOrderInput) : Option ℚ :=
  if input.type = OrderType.MARKET then
    (getLatestMarketDataForInstrument env input.instrumentId).map MarketData.close
  else input.price

/-- `OrderService.executeOrder`: resolve user and instrument (NotFound on
a miss), dispatch cash operations, fail a MARKET order with no market data
(BusinessRule), then resolve price and size and run validation and
persistence.  The enclosing `transaction` either commits (an `ok` result)
or rolls back (an `error`, with no ledger change). -/
def executeOrder (env : Env) (ledger : List Order) (now : Nat) (input : CreateOrderInput) :
    Except ExecError (List Order × OrderResponse) :=
  if findUserById env input.userId = false then
    Except.error (ExecError.notFound
      ("User with ID " ++ toString input.userId ++ " not found"))
  else
    match findInstrumentById env input.instrumentId with
    | none => Except.error (ExecError.notFound
        ("Instrument with ID " ++ toString input.instrumentId ++ " not found"))
    | some instrument =>
      if input.side = Side.CASH_IN ∨ input.side = Side.CASH_OUT then
        executeCashOperation ledger now input
      else
        match getLatestMarketDataForInstrument env input.instrumentId, input.type with
        | none, OrderType.MARKET =>
          Except.error (ExecError.businessRule
            ("No market data available for instrument " ++ instrument.ticker))
        | _, _ =>
          resolveSizeAndRun ledger now input (resolvedExecutionPrice env input)

/-- `OrderRepository.findOrderById` restricted to the ledger row (the
instrument join is separate in `cancelOrder`). -/
def findOrderById (ledger : List Order) (orderId : Nat) : Option Order :=
  ledger.find? (fun o => o.id == orderId)

/-- Response of a successful `cancelOrder` call: the cancelled order
enriched with the instrument's ticker and name. -/
structure CancelResponse where
  order : Order
  ticker : String
  name : String
  totalAmount : ℚ
deriving DecidableEq

/-- `OrderService.cancelOrder`: lock and fetch the order row (NotFound on a
miss), reject a non-owned order and a non-NEW order with BusinessRule
errors, then update the status to CANCELLED and return the order enriched
with instrument data.  A missing instrument row would crash the response
join (`rows[0]!`). -/
def cancelOrder (env : Env) (ledger : List Order) (orderId userId : Nat) :
    Except ExecError (List Order × CancelResponse) :=
  match findOrderById ledger orderId with
  | none => Except.error (ExecError.notFound
      ("Order with ID " ++ toString orderId ++ " not found"))
  | some existingOrder =>
    if existingOrder.userId ≠ userId then
      Except.error (ExecError.businessRule "Order not found or not owned by user")
    else if existingOrder.status ≠ OrderStatus.NEW then
      Except.error (ExecError.businessRule
        ("Only NEW orders can be cancelled. Current status: " ++ statusLabel existingOrder.status))
    else
      let cancelledOrder : Order := { existingOrder with status := OrderStatus.CANCELLED }
      let newLedger := ledger.map (fun o =>
        if o.id = orderId then { o with status := OrderStatus.CANCELLED } else o)
      match findInstrumentById env existingOrder.instrumentId with
      | none => Except.error (ExecError.internal "cannot read ticker of undefined")
      | some instrument =>
        Except.ok (newLedger,
          { order := cancelledOrder, ticker := instrument.ticker, name := instrument.name,
            totalAmount := roundTo2 ((cancelledOrder.size : ℚ) * cancelledOrder.price) })

/-- The `ORDER BY datetime DESC` ordering of the pagination query. -/
def byDatetimeDesc (a b : Order) : Prop := b.datetime ≤ a.datetime

instance : DecidableRel byDatetimeDesc := fun a b =>
  inferInstanceAs (Decidable (b.datetime ≤ a.datetime))

instance : IsTotal Order byDatetimeDesc :=
  ⟨fun a b => (Nat.le_total b.datetime a.datetime).elim Or.inl Or.inr⟩

instance : IsTrans Order byDatetimeDesc :=
  ⟨fun _ _ _ hab hbc => Nat.le_trans hbc hab⟩

/-- The `ORDER BY datetime ASC` ordering of the FILLED-orders query. -/
def byDatetimeAsc (a b : Order) : Prop := a.datetime ≤ b.datetime

instance : DecidableRel byDatetimeAsc := fun a b =>
  inferInstanceAs (Decidable (a.datetime ≤ b.datetime))

instance : IsTotal Order byDatetimeAsc :=
  ⟨fun a b => (Nat.le_total a.datetime b.datetime).elim Or.inl Or.inr⟩

instance : IsTrans Order byDatetimeAsc :=
  ⟨fun _ _ _ hab hbc => Nat.le_trans hab hbc⟩

/-- Row filter of the pagination query: the user's rows, restricted to
`datetime < cursor` when a cursor is given. -/
def pageFilter (userId : Nat) (cursor : Option Nat) (o : Order) : Bool :=
  o.userId == userId &&
    (match cursor with
     | some c => o.datetime < c
     | none => true)

/-- Result of `OrderRepository.getOrdersByUserId`; the cursor is the
creation timestamp (an ISO string in the source). -/
structure PagedOrders where
  orders : List Order
  nextCursor : Option Nat
  hasMore : Bool

/-- `OrderRepository.getOrdersByUserId`: cap the limit at 200, fetch
`safeLimit + 1` rows ordered by datetime descending (filtered below the
cursor when one is given), pop the extra row when more than `safeLimit`
came back, and emit `hasMore` plus the datetime of the last returned row as
`nextCursor`. -/
def getOrdersByUserId (ledger : List Order) (userId : Nat) (limit : Nat)
    (cursor : Option Nat) : PagedOrders :=
  let safeLimit := min limit 200
  let rows := (List.insertionSort byDatetimeDesc
    (ledger.filter (pageFilter userId cursor))).take (safeLimit + 1)
  let hasMore := safeLimit < rows.length
  let orders := if safeLimit < rows.length then rows.dropLast else rows
  let nextCursor :=
    if safeLimit < rows.length ∧ orders ≠ [] then
      orders.getLast?.map Order.datetime
    else none
  { orders := orders, nextCursor := nextCursor, hasMore := hasMore }

/-- `OrderRepository.getFilledOrdersByUserId`: the user's FILLED orders in
ascending creation-time order. -/
def getFilledOrdersByUserId (ledger : List Order) (userId : Nat) : List Order :=
  List.insertionSort byDatetimeAsc
    (ledger.filter (fun o => decide (o.userId = userId ∧ o.status = OrderStatus.FILLED)))

/-- Running (quantity, totalCost) pair of the position replay in
`PortfolioService.calculatePositions`. -/
structure PosCalc where
  instrumentId : Nat
  quantity : Int
  totalCost : ℚ
deriving DecidableEq

/-- Fresh replay entry for an instrument. -/
def emptyPos (instrumentId : Nat) : PosCalc :=
  { instrumentId := instrumentId, quantity := 0, totalCost := 0 }

/-- One replay step of `PortfolioService.calculatePositions`: BUY adds size
and size × price; SELL from a quantity of exactly 0 is skipped (division-
by-zero guard); otherwise SELL removes size shares at the moving average
cost.  Other sides leave the entry unchanged. -/
def applyOrderToPosition (p : PosCalc) (o : Order) : PosCalc :=
  if o.side = Side.BUY then
    { p with quantity := p.quantity + o.size,
             totalCost := p.totalCost + (o.size : ℚ) * o.price }
  else if o.side = Side.SELL then
    if p.quantity = 0 then p
    else
      let avgCost := p.totalCost / (p.quantity : ℚ)
      { p with quantity := p.quantity - o.size,
               totalCost := p.totalCost - (o.size : ℚ) * avgCost }
  else p

/-- Application of one order to the insertion-ordered map of the replay
(the JavaScript `Map`): create the entry on first touch, then update it in
place. -/
def applyOrderToMap (m : List (Nat × PosCalc)) (o : Order) : List (Nat × PosCalc) :=
  match m with
  | [] => [(o.instrumentId, applyOrderToPosition (emptyPos o.instrumentId) o)]
  | (i, p) :: rest =>
    if i = o.instrumentId then (i, applyOrderToPosition p o) :: rest
    else (i, p) :: applyOrderToMap rest o

/-- `PortfolioService.calculatePositions`: fold the orders into the
per-instrument map, then keep only entries with quantity strictly greater
than 0. -/
def calculatePositions (orders : List Order) : List (Nat × PosCalc) :=
  (orders.foldl applyOrderToMap []).filter (fun x => decide (0 < x.2.quantity))

/-- Replay of the orders of a single instrument, used to state what the
per-instrument entry of `calculatePositions` contains. -/
def replayInstrument (instrumentId : Nat) (orders : List Order) : PosCalc :=
  (orders.filter (fun o => o.instrumentId == instrumentId)).foldl
    applyOrderToPosition (emptyPos instrumentId)

/-- Lookup in the insertion-ordered association list. -/
def assocLookup (m : List (Nat × PosCalc)) (i : Nat) : Option PosCalc :=
  match m with
  | [] => none
  | (j, p) :: rest => if j = i then some p else assocLookup rest i

/-- An enriched portfolio position as produced by
`PortfolioService.enrichPositions`. -/
structure Position where
  instrumentId : Nat
  ticker : String
  name : String
  quantity : Int
  averageBuyPrice : ℚ
  currentPrice : ℚ
  marketValue : ℚ
  totalReturn : ℚ
  dailyReturn : ℚ
deriving DecidableEq

/-- Enrichment of one replayed position with market data and instrument
metadata, mirroring the per-position computations of `enrichPositions`. -/
def enrichPosition (md : MarketData) (instrument : Instrument) (i : Nat) (pc : PosCalc) :
    Position :=
  let currentPrice := md.close
  let previousPrice := md.previousClose
  let marketValue := (pc.quantity : ℚ) * currentPrice
  let averageBuyPrice := pc.totalCost / (pc.quantity : ℚ)
  let totalReturn :=
    if 0 < averageBuyPrice then
      roundTo2 ((currentPrice - averageBuyPrice) / averageBuyPrice * 100)
    else 0
  let dailyReturn :=
    if 0 < previousPrice then
      roundTo2 ((currentPrice - previousPrice) / previousPrice * 100)
    else 0
  { instrumentId := i, ticker := instrument.ticker, name := instrument.name,
    quantity := pc.quantity, averageBuyPrice := roundTo2 averageBuyPrice,
    currentPrice := roundTo2 currentPrice, marketValue := roundTo2 marketValue,
    totalReturn := totalReturn, dailyReturn := dailyReturn }

/-- The `sort((a, b) => b.marketValue - a.marketValue)` comparator. -/
def byMarketValueDesc (a b : Position) : Prop := b.marketValue ≤ a.marketValue

instance : DecidableRel byMarketValueDesc := fun a b =>
  inferInstanceAs (Decidable (b.marketValue ≤ a.marketValue))

instance : IsTotal Position byMarketValueDesc :=
  ⟨fun a b => (le_total b.marketValue a.marketValue).elim Or.inl Or.inr⟩

instance : IsTrans Position byMarketValueDesc :=
  ⟨fun _ _ _ hab hbc => le_trans hbc hab⟩

/-- `PortfolioService.enrichPositions`: skip positions missing market data
or instrument metadata, then sort by market value descending. -/
def enrichPositions (env : Env) (calcs : List (Nat × PosCalc)) : List Position :=
  List.insertionSort byMarketValueDesc
    (calcs.filterMap (fun x =>
      match getLatestMarketDataForInstrument env x.1, findInstrumentById env x.1 with
      | some md, some instrument => some (enrichPosition md instrument x.1 x.2)
      | _, _ => none))

/-- Portfolio response of `PortfolioService.getUserPortfolio`. -/
structure Portfolio where
  userId : Nat
  totalBalance : ℚ
  availableCash : ℚ
  positions : List Position

/-- `PortfolioService.getUserPortfolio`: NotFound for a missing user, then
available cash and the replayed, enriched positions over the user's FILLED
non-cash orders, with `totalBalance = availableCash + Σ marketValue`. -/
def getUserPortfolio (env : Env) (ledger : List Order) (userId : Nat) :
    Except ExecError Portfolio :=
  if findUserById env userId = false then
    Except.error (ExecError.notFound
      ("User with ID " ++ toString userId ++ " not found"))
  else
    let orders := getFilledOrdersByUserId ledger userId
    let availableCash := getUserAvailableCash ledger userId ARS_INSTRUMENT_ID
    let stockOrders := orders.filter (fun o => o.instrumentId != ARS_INSTRUMENT_ID)
    let positionCalculations := calculatePositions stockOrders
    if positionCalculations = [] then
      Except.ok { userId := userId, totalBalance := availableCash,
                  availableCash := availableCash, positions := [] }
    else
      let enrichedPositions := enrichPositions env positionCalculations
      let portfolioValue := (enrichedPositions.map Position.marketValue).sum
      Except.ok { userId := userId, totalBalance := availableCash + portfolioValue,
                  availableCash := availableCash, positions := enrichedPositions }

/-- Appending one row changes the available cash by the row's cash effect
when the row is a FILLED order of the same user, and not at all otherwise. -/
theorem getUserAvailableCash_append (ledger : List Order) (o : Order) (userId arsId : Nat) :
    getUserAvailableCash (ledger ++ [o]) userId arsId =
      getUserAvailableCash ledger userId arsId +
        (if o.userId = userId ∧ o.status = OrderStatus.FILLED then cashEffect arsId o else 0) := by
  unfold getUserAvailableCash
  rw [List.filter_append, List.map_append, List.sum_append]
  by_cases h : o.userId = userId ∧ o.status = OrderStatus.FILLED <;> simp [h]

/-- Under an existing user and instrument, a BUY/SELL side and available
market data for a MARKET order, `executeOrder` reduces to size resolution
and validation at the resolved execution price. -/
theorem executeOrder_reduces (env : Env) (ledger : List Order) (now : Nat)
    (input : CreateOrderInput)
    (huser : findUserById env input.userId = true)
    (hinstr : (findInstrumentById env input.instrumentId).isSome = true)
    (hside : input.side = Side.BUY ∨ input.side = Side.SELL)
    (hmd : input.type = OrderType.MARKET →
      (getLatestMarketDataForInstrument env input.instrumentId).isSome = true) :
    executeOrder env ledger now input
      = resolveSizeAndRun ledger now input (resolvedExecutionPrice env input) := by
  obtain ⟨instr, hinstr2⟩ := Option.isSome_iff_exists.mp hinstr
  have hcash : ¬ (input.side = Side.CASH_IN ∨ input.side = Side.CASH_OUT) := by
    rcases hside with h | h <;> simp [h]
  cases htype : input.type with
  | MARKET =>
    obtain ⟨md, hmd2⟩ := Option.isSome_iff_exists.mp (hmd htype)
    simp only [executeOrder, huser, hinstr2, hcash, htype, hmd2, Bool.true_eq_false,
      if_false, ite_false]
  | LIMIT =>
    cases hmd3 : getLatestMarketDataForInstrument env input.instrumentId with
    | none =>
      simp only [executeOrder, huser, hinstr2, hcash, htype, hmd3, Bool.true_eq_false,
        if_false, ite_false]
    | some md =>
      simp only [executeOrder, huser, hinstr2, hcash, htype, hmd3, Bool.true_eq_false,
        if_false, ite_false]

/-- With a valid execution price and a nonzero resolved size (given
directly or derived from `amount`), size resolution continues into
validation with that size. -/
theorem resolveSizeAndRun_resolved (ledger : List Order) (now : Nat)
    (input : CreateOrderInput) (p : ℚ) (s : Int)
    (hsize : input.size = some s ∨
      (input.size = none ∧ ∃ a, input.amount = some a ∧ Int.floor (a / p) = s))
    (hs : s ≠ 0) :
    resolveSizeAndRun ledger now input (some p)
      = stockOrderWithSize ledger now input (some p) s := by
  rcases hsize with h | ⟨h, a, ha, hfl⟩
  · simp [resolveSizeAndRun, h]
  · simp [resolveSizeAndRun, h, ha, hfl, hs]

/-- Validation plus persistence of a BUY/SELL order with a valid price:
the row is persisted with status REJECTED exactly when the BUY cost
exceeds the available cash or the SELL size exceeds the position, and
otherwise FILLED for MARKET and NEW for LIMIT. -/
theorem stockOrderWithSize_run (ledger : List Order) (now : Nat) (input : CreateOrderInput)
    (p : ℚ) (s : Int) (hside : input.side = Side.BUY ∨ input.side = Side.SELL) :
    stockOrderWithSize ledger now input (some p) s =
      Except.ok (persist ledger now input s p
        (if (input.side = Side.BUY ∧
              getUserAvailableCash ledger input.userId ARS_INSTRUMENT_ID < (s : ℚ) * p) ∨
            (input.side = Side.SELL ∧
              getUserPositionForInstrument ledger input.userId input.instrumentId < s)
         then OrderStatus.REJECTED
         else if input.type = OrderType.MARKET then OrderStatus.FILLED
              else OrderStatus.NEW)) := by
  rcases hside with h | h
  · unfold stockOrderWithSize validateOrder
    rw [h]
    by_cases hc : getUserAvailableCash ledger input.userId ARS_INSTRUMENT_ID < (s : ℚ) * p
    · simp [hc]
    · simp [hc]
  · unfold stockOrderWithSize validateOrder
    rw [h]
    by_cases hc : getUserPositionForInstrument ledger input.userId input.instrumentId < s
    · simp [hc]
    · simp [hc]

/-- A resolvable execution price implies that a MARKET order has market
data available. -/
theorem resolvedPrice_isSome_md (env : Env) (input : CreateOrderInput) (p : ℚ)
    (h : resolvedExecutionPrice env input = some p) :
    input.type = OrderType.MARKET →
      (getLatestMarketDataForInstrument env input.instrumentId).isSome = true := by
  intro ht
  unfold resolvedExecutionPrice at h
  rw [ht] at h
  simp only [if_pos rfl] at h
  cases hmd : getLatestMarketDataForInstrument env input.instrumentId with
  | none => rw [hmd] at h; simp at h
  | some md => rfl

/-- C2: for a BUY/SELL order of an existing user and instrument whose
execution price resolves (market data for MARKET, supplied price for
LIMIT) and whose resolved size is at least 1, `executeOrder` persists the
order and returns it on the success path, with status REJECTED exactly
when the BUY cost exceeds the locked available cash or the SELL size
exceeds the locked position; when validation passes, the persisted status
is FILLED for MARKET and NEW for LIMIT. -/
theorem executeOrder_rejected_iff_insufficient
    (env : Env) (ledger : List Order) (now : Nat) (input : CreateOrderInput) (p : ℚ) (s : Int)
    (huser : findUserById env input.userId = true)
    (hinstr : (findInstrumentById env input.instrumentId).isSome = true)
    (hside : input.side = Side.BUY ∨ input.side = Side.SELL)
    (hprice : resolvedExecutionPrice env input = some p)
    (hsize : input.size = some s ∨
      (input.size = none ∧ ∃ a, input.amount = some a ∧ Int.floor (a / p) = s))
    (hs : 1 ≤ s) :
    ∃ resp : OrderResponse,
      executeOrder env ledger now input = Except.ok (ledger ++ [resp.order], resp) ∧
      resp.order.size = s ∧ resp.order.price = p ∧
      (resp.order.status = OrderStatus.REJECTED ↔
        (input.side = Side.BUY ∧
          getUserAvailableCash ledger input.userId ARS_INSTRUMENT_ID < (s : ℚ) * p) ∨
        (input.side = Side.SELL ∧
          getUserPositionForInstrument ledger input.userId input.instrumentId < s)) ∧
      (resp.order.status ≠ OrderStatus.REJECTED →
        resp.order.status =
          (if input.type = OrderType.MARKET then OrderStatus.FILLED else OrderStatus.NEW)) := by
  rw [executeOrder_reduces env ledger now input huser hinstr hside
        (resolvedPrice_isSome_md env input p hprice), hprice,
      resolveSizeAndRun_resolved ledger now input p s hsize (by omega),
      stockOrderWithSize_run ledger now input p s hside]
  set st := (if (input.side = Side.BUY ∧
        getUserAvailableCash ledger input.userId ARS_INSTRUMENT_ID < (s : ℚ) * p) ∨
      (input.side = Side.SELL ∧
        getUserPositionForInstrument ledger input.userId input.instrumentId < s)
     then OrderStatus.REJECTED
     else if input.type = OrderType.MARKET then OrderStatus.FILLED
          else OrderStatus.NEW) with hst
  refine ⟨(persist ledger now input s p st).2, rfl, rfl, rfl, ?_, ?_⟩
  · show st = OrderStatus.REJECTED ↔ _
    by_cases hc : (input.side = Side.BUY ∧
        getUserAvailableCash ledger input.userId ARS_INSTRUMENT_ID < (s : ℚ) * p) ∨
      (input.side = Side.SELL ∧
        getUserPositionForInstrument ledger input.userId input.instrumentId < s)
    · simp [hst, hc]
    · cases htype : input.type <;> simp [hst, hc, htype]
  · show st ≠ OrderStatus.REJECTED → st = _
    intro hne
    by_cases hc : (input.side = Side.BUY ∧
        getUserAvailableCash ledger input.userId ARS_INSTRUMENT_ID < (s : ℚ) * p) ∨
      (input.side = Side.SELL ∧
        getUserPositionForInstrument ledger input.userId input.instrumentId < s)
    · exact absurd (by simp [hst, hc]) hne
    · simp [hst, hc]

/-- C2 witness: a concrete MARKET BUY of 5 shares at close 100 against
1000 of cash is persisted FILLED (the rejection condition is false). -/
theorem executeOrder_rejected_iff_insufficient_witness :
    ∃ resp : OrderResponse,
      executeOrder ⟨[1], [(2, ⟨"METR", "Metrogas"⟩)], [(2, ⟨100, 90⟩)]⟩
          [⟨1, 66, 1, 1000, 1, OrderType.MARKET, Side.CASH_IN, OrderStatus.FILLED, 0⟩] 5
          ⟨1, 2, Side.BUY, OrderType.MARKET, some 5, none, none⟩ =
        Except.ok
          ([⟨1, 66, 1, 1000, 1, OrderType.MARKET, Side.CASH_IN, OrderStatus.FILLED, 0⟩] ++
            [resp.order], resp) ∧
      resp.order.size = 5 ∧ resp.order.price = 100 ∧
      (resp.order.status = OrderStatus.REJECTED ↔
        (Side.BUY = Side.BUY ∧
          getUserAvailableCash
            [⟨1, 66, 1, 1000, 1, OrderType.MARKET, Side.CASH_IN, OrderStatus.FILLED, 0⟩]
            1 ARS_INSTRUMENT_ID < (5 : ℚ) * 100) ∨
        (Side.BUY = Side.SELL ∧
          getUserPositionForInstrument
            [⟨1, 66, 1, 1000, 1, OrderType.MARKET, Side.CASH_IN, OrderStatus.FILLED, 0⟩]
            1 2 < 5)) ∧
      (resp.order.status ≠ OrderStatus.REJECTED →
        resp.order.status =
          (if OrderType.MARKET = OrderType.MARKET then OrderStatus.FILLED
           else OrderStatus.NEW)) :=
  executeOrder_rejected_iff_insufficient
    ⟨[1], [(2, ⟨"METR", "Metrogas"⟩)], [(2, ⟨100, 90⟩)]⟩
    [⟨1, 66, 1, 1000, 1, OrderType.MARKET, Side.CASH_IN, OrderStatus.FILLED, 0⟩] 5
    ⟨1, 2, Side.BUY, OrderType.MARKET, some 5, none, none⟩ 100 5
    (by with_unfolding_all decide) (by with_unfolding_all decide) (Or.inl rfl)
    (by with_unfolding_all rfl) (Or.inl rfl) (by decide)

/-- C1 (amended to MARKET BUY orders): two BUY MARKET orders of the same
user, each individually costing at most the available cash C but jointly
more than C, executed in the serialization order imposed by the exclusive
row locks: the first call persists a FILLED order and the second call
re-evaluates the available cash on the committed ledger and persists a
REJECTED order. -/
theorem market_buys_no_joint_overspend
    (env : Env) (ledger : List Order) (now1 now2 : Nat) (u : Nat)
    (i1 i2 : CreateOrderInput) (p1 p2 : ℚ) (s1 s2 : Int)
    (hu1 : i1.userId = u) (hu2 : i2.userId = u)
    (hside1 : i1.side = Side.BUY) (hside2 : i2.side = Side.BUY)
    (htype1 : i1.type = OrderType.MARKET) (htype2 : i2.type = OrderType.MARKET)
    (huser : findUserById env u = true)
    (hinstr1 : (findInstrumentById env i1.instrumentId).isSome = true)
    (hinstr2 : (findInstrumentById env i2.instrumentId).isSome = true)
    (hprice1 : resolvedExecutionPrice env i1 = some p1)
    (hprice2 : resolvedExecutionPrice env i2 = some p2)
    (hsize1 : i1.size = some s1) (hsize2 : i2.size = some s2)
    (hs1 : 1 ≤ s1) (hs2 : 1 ≤ s2)
    (hcost1 : (s1 : ℚ) * p1 ≤ getUserAvailableCash ledger u ARS_INSTRUMENT_ID)
    (hcost2 : (s2 : ℚ) * p2 ≤ getUserAvailableCash ledger u ARS_INSTRUMENT_ID)
    (hjoint : getUserAvailableCash ledger u ARS_INSTRUMENT_ID <
      (s1 : ℚ) * p1 + (s2 : ℚ) * p2) :
    ∃ L1 r1 L2 r2,
      executeOrder env ledger now1 i1 = Except.ok (L1, r1) ∧
      r1.order.status = OrderStatus.FILLED ∧
      executeOrder env L1 now2 i2 = Except.ok (L2, r2) ∧
      r2.order.status = OrderStatus.REJECTED := by
  have hrun1 : executeOrder env ledger now1 i1 =
      Except.ok (persist ledger now1 i1 s1 p1
        (if (i1.side = Side.BUY ∧
              getUserAvailableCash ledger i1.userId ARS_INSTRUMENT_ID < (s1 : ℚ) * p1) ∨
            (i1.side = Side.SELL ∧
              getUserPositionForInstrument ledger i1.userId i1.instrumentId < s1)
         then OrderStatus.REJECTED
         else if i1.type = OrderType.MARKET then OrderStatus.FILLED
              else OrderStatus.NEW)) := by
    rw [executeOrder_reduces env ledger now1 i1 (hu1 ▸ huser) hinstr1 (Or.inl hside1)
          (resolvedPrice_isSome_md env i1 p1 hprice1), hprice1,
        resolveSizeAndRun_resolved ledger now1 i1 p1 s1 (Or.inl hsize1) (by omega),
        stockOrderWithSize_run ledger now1 i1 p1 s1 (Or.inl hside1)]
  have hnc1 : ¬ ((i1.side = Side.BUY ∧
      getUserAvailableCash ledger i1.userId ARS_INSTRUMENT_ID < (s1 : ℚ) * p1) ∨
      (i1.side = Side.SELL ∧
        getUserPositionForInstrument ledger i1.userId i1.instrumentId < s1)) := by
    rintro (⟨_, hlt⟩ | ⟨hsell, _⟩)
    · rw [hu1] at hlt
      exact absurd hlt (not_lt.mpr hcost1)
    · rw [hside1] at hsell
      cases hsell
  rw [if_neg hnc1, if_pos htype1] at hrun1
  set o1 : Order :=
    { id := ledger.length + 1, instrumentId := i1.instrumentId, userId := i1.userId,
      size := s1, price := p1, type := i1.type, side := i1.side,
      status := OrderStatus.FILLED, datetime := now1 } with ho1
  have hcashL1 : getUserAvailableCash (ledger ++ [o1]) u ARS_INSTRUMENT_ID =
      getUserAvailableCash ledger u ARS_INSTRUMENT_ID - (s1 : ℚ) * p1 := by
    rw [getUserAvailableCash_append]
    rw [if_pos ⟨hu1, rfl⟩]
    have heff : cashEffect ARS_INSTRUMENT_ID o1 = -((s1 : ℚ) * p1) := by
      unfold cashEffect
      simp [ho1, hside1]
    rw [heff]
    ring
  have hrun2 : executeOrder env (ledger ++ [o1]) now2 i2 =
      Except.ok (persist (ledger ++ [o1]) now2 i2 s2 p2
        (if (i2.side = Side.BUY ∧
              getUserAvailableCash (ledger ++ [o1]) i2.userId ARS_INSTRUMENT_ID <
                (s2 : ℚ) * p2) ∨
            (i2.side = Side.SELL ∧
              getUserPositionForInstrument (ledger ++ [o1]) i2.userId i2.instrumentId < s2)
         then OrderStatus.REJECTED
         else if i2.type = OrderType.MARKET then OrderStatus.FILLED
              else OrderStatus.NEW)) := by
    rw [executeOrder_reduces env (ledger ++ [o1]) now2 i2 (hu2 ▸ huser) hinstr2
          (Or.inl hside2) (resolvedPrice_isSome_md env i2 p2 hprice2), hprice2,
        resolveSizeAndRun_resolved (ledger ++ [o1]) now2 i2 p2 s2 (Or.inl hsize2) (by omega),
        stockOrderWithSize_run (ledger ++ [o1]) now2 i2 p2 s2 (Or.inl hside2)]
  have hc2 : (i2.side = Side.BUY ∧
      getUserAvailableCash (ledger ++ [o1]) i2.userId ARS_INSTRUMENT_ID < (s2 : ℚ) * p2) ∨
      (i2.side = Side.SELL ∧
        getUserPositionForInstrument (ledger ++ [o1]) i2.userId i2.instrumentId < s2) := by
    left
    refine ⟨hside2, ?_⟩
    rw [hu2, hcashL1]
    linarith
  rw [if_pos hc2] at hrun2
  exact ⟨ledger ++ [o1], (persist ledger now1 i1 s1 p1 OrderStatus.FILLED).2,
    (ledger ++ [o1]) ++ [(persist (ledger ++ [o1]) now2 i2 s2 p2 OrderStatus.REJECTED).2.order],
    (persist (ledger ++ [o1]) now2 i2 s2 p2 OrderStatus.REJECTED).2,
    hrun1, rfl, hrun2, rfl⟩

/-- C1 witness: with 100 of cash and two MARKET BUY orders costing 80
each, the serialized execution fills the first and rejects the second. -/
theorem market_buys_no_joint_overspend_witness :
    ∃ L1 r1 L2 r2,
      executeOrder ⟨[1], [(2, ⟨"METR", "Metrogas"⟩)], [(2, ⟨80, 70⟩)]⟩
          [⟨1, 66, 1, 100, 1, OrderType.MARKET, Side.CASH_IN, OrderStatus.FILLED, 0⟩] 1
          ⟨1, 2, Side.BUY, OrderType.MARKET, some 1, none, none⟩ =
        Except.ok (L1, r1) ∧
      r1.order.status = OrderStatus.FILLED ∧
      executeOrder ⟨[1], [(2, ⟨"METR", "Metrogas"⟩)], [(2, ⟨80, 70⟩)]⟩ L1 2
          ⟨1, 2, Side.BUY, OrderType.MARKET, some 1, none, none⟩ =
        Except.ok (L2, r2) ∧
      r2.order.status = OrderStatus.REJECTED :=
  market_buys_no_joint_overspend
    ⟨[1], [(2, ⟨"METR", "Metrogas"⟩)], [(2, ⟨80, 70⟩)]⟩
    [⟨1, 66, 1, 100, 1, OrderType.MARKET, Side.CASH_IN, OrderStatus.FILLED, 0⟩] 1 2 1
    ⟨1, 2, Side.BUY, OrderType.MARKET, some 1, none, none⟩
    ⟨1, 2, Side.BUY, OrderType.MARKET, some 1, none, none⟩ 80 80 1 1
    rfl rfl rfl rfl rfl rfl
    (by with_unfolding_all decide) (by with_unfolding_all decide)
    (by with_unfolding_all decide) (by with_unfolding_all rfl) (by with_unfolding_all rfl)
    rfl rfl (by decide) (by decide)
    (by with_unfolding_all decide) (by with_unfolding_all decide)
    (by with_unfolding_all decide)

/-- C1 counterexample: the claim quantifies over every pair of BUY orders,
but for two LIMIT BUY orders that jointly overspend, the serialized
execution persists both with status NEW — the second call re-evaluates the
unchanged available cash (a resting LIMIT order has no economic effect),
passes validation and does not persist a REJECTED order. -/
theorem limit_buys_overspend_counterexample :
    executeOrder ⟨[1], [(2, ⟨"METR", "Metrogas"⟩)], []⟩
        [⟨1, 66, 1, 100, 1, OrderType.MARKET, Side.CASH_IN, OrderStatus.FILLED, 0⟩] 1
        ⟨1, 2, Side.BUY, OrderType.LIMIT, some 1, none, some 80⟩ =
      Except.ok
        ([⟨1, 66, 1, 100, 1, OrderType.MARKET, Side.CASH_IN, OrderStatus.FILLED, 0⟩,
          ⟨2, 2, 1, 1, 80, OrderType.LIMIT, Side.BUY, OrderStatus.NEW, 1⟩],
         ⟨⟨2, 2, 1, 1, 80, OrderType.LIMIT, Side.BUY, OrderStatus.NEW, 1⟩, 80⟩) ∧
    executeOrder ⟨[1], [(2, ⟨"METR", "Metrogas"⟩)], []⟩
        [⟨1, 66, 1, 100, 1, OrderType.MARKET, Side.CASH_IN, OrderStatus.FILLED, 0⟩,
         ⟨2, 2, 1, 1, 80, OrderType.LIMIT, Side.BUY, OrderStatus.NEW, 1⟩] 2
        ⟨1, 2, Side.BUY, OrderType.LIMIT, some 1, none, some 80⟩ =
      Except.ok
        ([⟨1, 66, 1, 100, 1, OrderType.MARKET, Side.CASH_IN, OrderStatus.FILLED, 0⟩,
          ⟨2, 2, 1, 1, 80, OrderType.LIMIT, Side.BUY, OrderStatus.NEW, 1⟩,
          ⟨3, 2, 1, 1, 80, OrderType.LIMIT, Side.BUY, OrderStatus.NEW, 2⟩],
         ⟨⟨3, 2, 1, 1, 80, OrderType.LIMIT, Side.BUY, OrderStatus.NEW, 2⟩, 80⟩) := by
  constructor
  · with_unfolding_all rfl
  · with_unfolding_all rfl

/-- Under an existing user and instrument, a CASH_IN/CASH_OUT order is
dispatched to `executeCashOperation`. -/
theorem executeOrder_cash_reduces (env : Env) (ledger : List Order) (now : Nat)
    (input : CreateOrderInput)
    (huser : findUserById env input.userId = true)
    (hinstr : (findInstrumentById env input.instrumentId).isSome = true)
    (hside : input.side = Side.CASH_IN ∨ input.side = Side.CASH_OUT) :
    executeOrder env ledger now input = executeCashOperation ledger now input := by
  obtain ⟨instr, hinstr2⟩ := Option.isSome_iff_exists.mp hinstr
  simp only [executeOrder, huser, hinstr2, Bool.true_eq_false, if_false, ite_false,
    if_pos hside]

/-- On the ARS instrument, a cash operation resolves its size (directly or
as `floor(amount ÷ 1)`) and proceeds with it. -/
theorem executeCashOperation_resolved (ledger : List Order) (now : Nat)
    (input : CreateOrderInput) (s : Int)
    (hars : input.instrumentId = ARS_INSTRUMENT_ID)
    (hsize : input.size = some s ∨
      (input.size = none ∧ ∃ a, input.amount = some a ∧ Int.floor (a / 1) = s)) :
    executeCashOperation ledger now input = cashOpWithSize ledger now input s := by
  unfold executeCashOperation
  rw [if_neg (by simp [hars])]
  rcases hsize with h | ⟨h, a, ha, hfl⟩
  · rw [h]
  · simp only [h, ha, hfl]

/-- A cash operation with a resolved size persists a REJECTED receipt
exactly for an underfunded CASH_OUT, and otherwise persists the cash order
FILLED at price 1. -/
theorem cashOpWithSize_run (ledger : List Order) (now : Nat) (input : CreateOrderInput)
    (s : Int) :
    cashOpWithSize ledger now input s =
      (if input.side = Side.CASH_OUT ∧
          getUserAvailableCash ledger input.userId ARS_INSTRUMENT_ID < (s : ℚ) * 1
       then Except.ok (persistCashRejected ledger now input.userId s)
       else Except.ok (persist ledger now input s 1 OrderStatus.FILLED)) := by
  unfold cashOpWithSize
  by_cases h1 : input.side = Side.CASH_OUT
  · by_cases h2 : getUserAvailableCash ledger input.userId ARS_INSTRUMENT_ID < (s : ℚ) * 1
    · simp [h1, h2]
    · simp [h1, h2]
  · simp [h1]

/-- C4: a CASH_IN/CASH_OUT order of an existing user and instrument fails
with a BusinessRule error when the instrument is not the cash instrument;
on the cash instrument, with size resolved as given or as
`floor(amount ÷ 1)`, an underfunded CASH_OUT is persisted REJECTED and
returned successfully, and every other cash operation is persisted FILLED
at price 1 — never NEW. -/
theorem cash_operation_spec (env : Env) (ledger : List Order) (now : Nat)
    (input : CreateOrderInput) (s : Int)
    (huser : findUserById env input.userId = true)
    (hinstr : (findInstrumentById env input.instrumentId).isSome = true)
    (hside : input.side = Side.CASH_IN ∨ input.side = Side.CASH_OUT)
    (hsize : input.size = some s ∨
      (input.size = none ∧ ∃ a, input.amount = some a ∧ Int.floor (a / 1) = s)) :
    (input.instrumentId ≠ ARS_INSTRUMENT_ID →
      ∃ msg, executeOrder env ledger now input =
        Except.error (ExecError.businessRule msg)) ∧
    (input.instrumentId = ARS_INSTRUMENT_ID →
      ∃ resp : OrderResponse,
        executeOrder env ledger now input = Except.ok (ledger ++ [resp.order], resp) ∧
        resp.order.size = s ∧ resp.order.price = 1 ∧
        (resp.order.status = OrderStatus.REJECTED ↔
          input.side = Side.CASH_OUT ∧
            getUserAvailableCash ledger input.userId ARS_INSTRUMENT_ID < (s : ℚ)) ∧
        (resp.order.status ≠ OrderStatus.REJECTED →
          resp.order.status = OrderStatus.FILLED) ∧
        resp.order.status ≠ OrderStatus.NEW) := by
  rw [executeOrder_cash_reduces env ledger now input huser hinstr hside]
  constructor
  · intro hne
    refine ⟨sideLabel input.side ++ " operations must use ARS instrument (ID 66)", ?_⟩
    unfold executeCashOperation
    rw [if_pos hne]
  · intro hars
    rw [executeCashOperation_resolved ledger now input s hars hsize, cashOpWithSize_run]
    by_cases hc : input.side = Side.CASH_OUT ∧
        getUserAvailableCash ledger input.userId ARS_INSTRUMENT_ID < (s : ℚ) * 1
    · rw [if_pos hc]
      refine ⟨(persistCashRejected ledger now input.userId s).2, ?_, rfl, rfl, ?_, ?_, ?_⟩
      · show Except.ok (persistCashRejected ledger now input.userId s) = _
        have harsEq : input.instrumentId = ARS_INSTRUMENT_ID := hars
        simp [persistCashRejected]
      · simp only [mul_one] at hc
        simp [persistCashRejected, hc]
      · intro h
        exact absurd rfl h
      · simp [persistCashRejected]
    · rw [if_neg hc]
      refine ⟨(persist ledger now input s 1 OrderStatus.FILLED).2, rfl, rfl, rfl, ?_, ?_, ?_⟩
      · rw [mul_one] at hc
        simp [persist, hc]
      · intro _
        rfl
      · simp [persist]

/-- C4 witness: a CASH_IN of amount 500 on the ARS instrument is persisted
FILLED at price 1 with size floor(500 ÷ 1) = 500. -/
theorem cash_operation_spec_witness :
    ((66 : Nat) ≠ ARS_INSTRUMENT_ID →
      ∃ msg, executeOrder ⟨[1], [(66, ⟨"ARS", "Pesos"⟩)], []⟩ [] 3
          ⟨1, 66, Side.CASH_IN, OrderType.MARKET, none, some 500, none⟩ =
        Except.error (ExecError.businessRule msg)) ∧
    ((66 : Nat) = ARS_INSTRUMENT_ID →
      ∃ resp : OrderResponse,
        executeOrder ⟨[1], [(66, ⟨"ARS", "Pesos"⟩)], []⟩ [] 3
            ⟨1, 66, Side.CASH_IN, OrderType.MARKET, none, some 500, none⟩ =
          Except.ok ([] ++ [resp.order], resp) ∧
        resp.order.size = 500 ∧ resp.order.price = 1 ∧
        (resp.order.status = OrderStatus.REJECTED ↔
          Side.CASH_IN = Side.CASH_OUT ∧
            getUserAvailableCash [] 1 ARS_INSTRUMENT_ID < (500 : ℚ)) ∧
        (resp.order.status ≠ OrderStatus.REJECTED →
          resp.order.status = OrderStatus.FILLED) ∧
        resp.order.status ≠ OrderStatus.NEW) :=
  cash_operation_spec ⟨[1], [(66, ⟨"ARS", "Pesos"⟩)], []⟩ [] 3
    ⟨1, 66, Side.CASH_IN, OrderType.MARKET, none, some 500, none⟩ 500
    (by with_unfolding_all decide) (by with_unfolding_all decide) (Or.inl rfl)
    (Or.inr ⟨rfl, 500, rfl, by with_unfolding_all rfl⟩)

/-- C9: a CASH_OUT on the cash instrument that fails the funds check is
persisted REJECTED with type MARKET and price 1 regardless of the type
supplied in the input, while a CASH_OUT that passes validation is
persisted FILLED with the input's type. -/
theorem cash_out_rejected_kind_spec (env : Env) (ledger : List Order) (now : Nat)
    (input : CreateOrderInput) (s : Int)
    (huser : findUserById env input.userId = true)
    (hinstr : (findInstrumentById env input.instrumentId).isSome = true)
    (hside : input.side = Side.CASH_OUT)
    (hars : input.instrumentId = ARS_INSTRUMENT_ID)
    (hsize : input.size = some s ∨
      (input.size = none ∧ ∃ a, input.amount = some a ∧ Int.floor (a / 1) = s)) :
    (getUserAvailableCash ledger input.userId ARS_INSTRUMENT_ID < (s : ℚ) →
      ∃ resp : OrderResponse,
        executeOrder env ledger now input = Except.ok (ledger ++ [resp.order], resp) ∧
        resp.order.status = OrderStatus.REJECTED ∧
        resp.order.type = OrderType.MARKET ∧ resp.order.price = 1) ∧
    ((s : ℚ) ≤ getUserAvailableCash ledger input.userId ARS_INSTRUMENT_ID →
      ∃ resp : OrderResponse,
        executeOrder env ledger now input = Except.ok (ledger ++ [resp.order], resp) ∧
        resp.order.status = OrderStatus.FILLED ∧
        resp.order.type = input.type ∧ resp.order.price = 1) := by
  rw [executeOrder_cash_reduces env ledger now input huser hinstr (Or.inr hside),
      executeCashOperation_resolved ledger now input s hars hsize, cashOpWithSize_run]
  constructor
  · intro hlt
    rw [if_pos ⟨hside, by rw [mul_one]; exact hlt⟩]
    exact ⟨(persistCashRejected ledger now input.userId s).2,
      by simp [persistCashRejected], rfl, rfl, rfl⟩
  · intro hle
    rw [if_neg (by rw [mul_one]; exact fun h => absurd h.2 (not_lt.mpr hle))]
    exact ⟨(persist ledger now input s 1 OrderStatus.FILLED).2, rfl, rfl, rfl, rfl⟩

/-- C9 witness: a LIMIT CASH_OUT of 50 against 10 of cash is persisted
REJECTED with type MARKET (not the supplied LIMIT) at price 1. -/
theorem cash_out_rejected_kind_spec_witness :
    (getUserAvailableCash
        [⟨1, 66, 1, 10, 1, OrderType.MARKET, Side.CASH_IN, OrderStatus.FILLED, 0⟩]
        1 ARS_INSTRUMENT_ID < (50 : ℚ) →
      ∃ resp : OrderResponse,
        executeOrder ⟨[1], [(66, ⟨"ARS", "Pesos"⟩)], []⟩
            [⟨1, 66, 1, 10, 1, OrderType.MARKET, Side.CASH_IN, OrderStatus.FILLED, 0⟩] 4
            ⟨1, 66, Side.CASH_OUT, OrderType.LIMIT, some 50, none, none⟩ =
          Except.ok
            ([⟨1, 66, 1, 10, 1, OrderType.MARKET, Side.CASH_IN, OrderStatus.FILLED, 0⟩] ++
              [resp.order], resp) ∧
        resp.order.status = OrderStatus.REJECTED ∧
        resp.order.type = OrderType.MARKET ∧ resp.order.price = 1) ∧
    ((50 : ℚ) ≤ getUserAvailableCash
        [⟨1, 66, 1, 10, 1, OrderType.MARKET, Side.CASH_IN, OrderStatus.FILLED, 0⟩]
        1 ARS_INSTRUMENT_ID →
      ∃ resp : OrderResponse,
        executeOrder ⟨[1], [(66, ⟨"ARS", "Pesos"⟩)], []⟩
            [⟨1, 66, 1, 10, 1, OrderType.MARKET, Side.CASH_IN, OrderStatus.FILLED, 0⟩] 4
            ⟨1, 66, Side.CASH_OUT, OrderType.LIMIT, some 50, none, none⟩ =
          Except.ok
            ([⟨1, 66, 1, 10, 1, OrderType.MARKET, Side.CASH_IN, OrderStatus.FILLED, 0⟩] ++
              [resp.order], resp) ∧
        resp.order.status = OrderStatus.FILLED ∧
        resp.order.type = OrderType.LIMIT ∧ resp.order.price = 1) :=
  cash_out_rejected_kind_spec ⟨[1], [(66, ⟨"ARS", "Pesos"⟩)], []⟩
    [⟨1, 66, 1, 10, 1, OrderType.MARKET, Side.CASH_IN, OrderStatus.FILLED, 0⟩] 4
    ⟨1, 66, Side.CASH_OUT, OrderType.LIMIT, some 50, none, none⟩ 50
    (by with_unfolding_all decide) (by with_unfolding_all decide) rfl rfl (Or.inl rfl)

/-- C5: a BUY/SELL order of an existing user and instrument that supplies
`amount` instead of `size` resolves size = floor(amount ÷ executionPrice);
a floored size of 0 is persisted REJECTED with size 0 and returned as a
successful call, and the returned totalAmount is always size × price
rounded to 2 decimal places. -/
theorem amount_order_spec (env : Env) (ledger : List Order) (now : Nat)
    (input : CreateOrderInput) (p : ℚ) (a : ℚ)
    (huser : findUserById env input.userId = true)
    (hinstr : (findInstrumentById env input.instrumentId).isSome = true)
    (hside : input.side = Side.BUY ∨ input.side = Side.SELL)
    (hprice : resolvedExecutionPrice env input = some p)
    (hsizeNone : input.size = none) (hamount : input.amount = some a) :
    ∃ resp : OrderResponse,
      executeOrder env ledger now input = Except.ok (ledger ++ [resp.order], resp) ∧
      resp.order.size = Int.floor (a / p) ∧
      (Int.floor (a / p) = 0 → resp.order.status = OrderStatus.REJECTED) ∧
      resp.totalAmount = roundTo2 ((Int.floor (a / p) : ℚ) * p) := by
  rw [executeOrder_reduces env ledger now input huser hinstr hside
        (resolvedPrice_isSome_md env input p hprice), hprice]
  by_cases hz : Int.floor (a / p) = 0
  · have hrun : resolveSizeAndRun ledger now input (some p) =
        Except.ok (persist ledger now input 0 p OrderStatus.REJECTED) := by
      simp [resolveSizeAndRun, hsizeNone, hamount, hz]
    rw [hrun]
    refine ⟨(persist ledger now input 0 p OrderStatus.REJECTED).2, rfl, ?_, fun _ => rfl, ?_⟩
    · show (0 : Int) = Int.floor (a / p)
      omega
    · show roundTo2 (((0 : Int) : ℚ) * p) = roundTo2 ((Int.floor (a / p) : ℚ) * p)
      rw [hz]
  · rw [resolveSizeAndRun_resolved ledger now input p (Int.floor (a / p))
          (Or.inr ⟨hsizeNone, a, hamount, rfl⟩) hz,
        stockOrderWithSize_run ledger now input p (Int.floor (a / p)) hside]
    exact ⟨(persist ledger now input (Int.floor (a / p)) p _).2, rfl, rfl,
      fun h => absurd h hz, rfl⟩

/-- C5 witness: an amount of 50 at price 150 floors to size 0 and is
persisted REJECTED; the claim's example amount 1000 at price 150.00 gives
size floor(1000 ÷ 150) = 6 and totalAmount 6 × 150 = 900.00. -/
theorem amount_order_spec_witness :
    Int.floor ((1000 : ℚ) / 150) = 6 ∧ roundTo2 ((6 : ℚ) * 150) = 900 ∧
    ∃ resp : OrderResponse,
      executeOrder ⟨[1], [(2, ⟨"METR", "Metrogas"⟩)], [(2, ⟨150, 140⟩)]⟩
          [⟨1, 66, 1, 1000, 1, OrderType.MARKET, Side.CASH_IN, OrderStatus.FILLED, 0⟩] 6
          ⟨1, 2, Side.BUY, OrderType.MARKET, none, some 50, none⟩ =
        Except.ok
          ([⟨1, 66, 1, 1000, 1, OrderType.MARKET, Side.CASH_IN, OrderStatus.FILLED, 0⟩] ++
            [resp.order], resp) ∧
      resp.order.size = Int.floor ((50 : ℚ) / 150) ∧
      (Int.floor ((50 : ℚ) / 150) = 0 → resp.order.status = OrderStatus.REJECTED) ∧
      resp.totalAmount = roundTo2 ((Int.floor ((50 : ℚ) / 150) : ℚ) * 150) :=
  ⟨by with_unfolding_all rfl, by with_unfolding_all rfl,
    amount_order_spec ⟨[1], [(2, ⟨"METR", "Metrogas"⟩)], [(2, ⟨150, 140⟩)]⟩
      [⟨1, 66, 1, 1000, 1, OrderType.MARKET, Side.CASH_IN, OrderStatus.FILLED, 0⟩] 6
      ⟨1, 2, Side.BUY, OrderType.MARKET, none, some 50, none⟩ 150 50
      (by with_unfolding_all decide) (by with_unfolding_all decide) (Or.inl rfl)
      (by with_unfolding_all rfl) rfl rfl⟩

/-- C8 (amended): `executeOrder` performs no defensive presence check on
the LIMIT price: for a BUY/SELL LIMIT order with no price, the LIMIT
branch still computes the execution price from the absent value (the
invalid stringification, `resolvedExecutionPrice = none`), proceeds, and
the call then fails with an uncontrolled internal error (a Decimal or
database conversion failure, not a NotFound/BusinessRule error), so no
order is ever persisted or executed without a price. -/
theorem limit_without_price_internal_error (env : Env) (ledger : List Order) (now : Nat)
    (input : CreateOrderInput)
    (huser : findUserById env input.userId = true)
    (hinstr : (findInstrumentById env input.instrumentId).isSome = true)
    (hside : input.side = Side.BUY ∨ input.side = Side.SELL)
    (htype : input.type = OrderType.LIMIT)
    (hprice : input.price = none) :
    resolvedExecutionPrice env input = none ∧
    ∃ msg, executeOrder env ledger now input = Except.error (ExecError.internal msg) := by
  have hrp : resolvedExecutionPrice env input = none := by
    simp [resolvedExecutionPrice, htype, hprice]
  have hmdvac : input.type = OrderType.MARKET →
      (getLatestMarketDataForInstrument env input.instrumentId).isSome = true := by
    intro hM
    rw [htype] at hM
    exact absurd hM (by simp)
  refine ⟨hrp, ?_⟩
  rw [executeOrder_reduces env ledger now input huser hinstr hside hmdvac, hrp]
  cases hsz : input.size with
  | some s =>
    rcases hside with h | h
    · exact ⟨"DecimalError: Invalid argument",
        by simp [resolveSizeAndRun, hsz, stockOrderWithSize, validateOrder, h]⟩
    · by_cases hc : getUserPositionForInstrument ledger input.userId input.instrumentId < s
      · exact ⟨"invalid input syntax for type numeric",
          by simp [resolveSizeAndRun, hsz, stockOrderWithSize, validateOrder, h, hc]⟩
      · exact ⟨"invalid input syntax for type numeric",
          by simp [resolveSizeAndRun, hsz, stockOrderWithSize, validateOrder, h, hc]⟩
  | none =>
    cases ham : input.amount with
    | none => exact ⟨"DecimalError: Invalid argument", by simp [resolveSizeAndRun, hsz, ham]⟩
    | some a => exact ⟨"DecimalError: Invalid argument", by simp [resolveSizeAndRun, hsz, ham]⟩

/-- C8 witness: a concrete LIMIT SELL with no price (against a position of
10 shares, so validation itself would pass) resolves the invalid execution
price and fails with an internal error. -/
theorem limit_without_price_internal_error_witness :
    resolvedExecutionPrice ⟨[1], [(2, ⟨"METR", "Metrogas"⟩)], [(2, ⟨100, 90⟩)]⟩
        ⟨1, 2, Side.SELL, OrderType.LIMIT, some 5, none, none⟩ = none ∧
    ∃ msg, executeOrder ⟨[1], [(2, ⟨"METR", "Metrogas"⟩)], [(2, ⟨100, 90⟩)]⟩
        [⟨1, 2, 1, 10, 100, OrderType.MARKET, Side.BUY, OrderStatus.FILLED, 0⟩] 3
        ⟨1, 2, Side.SELL, OrderType.LIMIT, some 5, none, none⟩ =
      Except.error (ExecError.internal msg) :=
  limit_without_price_internal_error ⟨[1], [(2, ⟨"METR", "Metrogas"⟩)], [(2, ⟨100, 90⟩)]⟩
    [⟨1, 2, 1, 10, 100, OrderType.MARKET, Side.BUY, OrderStatus.FILLED, 0⟩] 3
    ⟨1, 2, Side.SELL, OrderType.LIMIT, some 5, none, none⟩
    (by with_unfolding_all decide) (by with_unfolding_all decide) (Or.inr rfl) rfl rfl

/-- C8 counterexample: on a concrete LIMIT SELL with no supplied price the
engine is not defensive: it computes the execution price from the absent
value (`resolvedExecutionPrice = none`, the invalid stringified
`undefined`) and proceeds until the database numeric conversion fails with
an uncontrolled internal error — not a BusinessRule rejection of the
contradictory input. -/
theorem limit_without_price_counterexample :
    executeOrder ⟨[1], [(2, ⟨"METR", "Metrogas"⟩)], [(2, ⟨100, 90⟩)]⟩
        [⟨1, 2, 1, 10, 100, OrderType.MARKET, Side.BUY, OrderStatus.FILLED, 0⟩] 4
        ⟨1, 2, Side.SELL, OrderType.LIMIT, some 4, none, none⟩ =
      Except.error (ExecError.internal "invalid input syntax for type numeric") ∧
    resolvedExecutionPrice ⟨[1], [(2, ⟨"METR", "Metrogas"⟩)], [(2, ⟨100, 90⟩)]⟩
        ⟨1, 2, Side.SELL, OrderType.LIMIT, some 4, none, none⟩ = none ∧
    ∀ msg, executeOrder ⟨[1], [(2, ⟨"METR", "Metrogas"⟩)], [(2, ⟨100, 90⟩)]⟩
        [⟨1, 2, 1, 10, 100, OrderType.MARKET, Side.BUY, OrderStatus.FILLED, 0⟩] 4
        ⟨1, 2, Side.SELL, OrderType.LIMIT, some 4, none, none⟩ ≠
      Except.error (ExecError.businessRule msg) := by
  have he : executeOrder ⟨[1], [(2, ⟨"METR", "Metrogas"⟩)], [(2, ⟨100, 90⟩)]⟩
      [⟨1, 2, 1, 10, 100, OrderType.MARKET, Side.BUY, OrderStatus.FILLED, 0⟩] 4
      ⟨1, 2, Side.SELL, OrderType.LIMIT, some 4, none, none⟩ =
      Except.error (ExecError.internal "invalid input syntax for type numeric") := by
    with_unfolding_all rfl
  refine ⟨he, by with_unfolding_all rfl, fun msg h => ?_⟩
  rw [he] at h
  injection h with h2
  exact ExecError.noConfusion h2

/-- C6: `cancelOrder` fails with NotFound when no order with the id
exists; fails with a BusinessRule error whose message is exactly "Order
not found or not owned by user" when the order belongs to another user;
fails with a BusinessRule error naming the current status when the status
is not NEW; and only when the order exists, is owned by the caller and has
status NEW does it update the status to CANCELLED and return the order
enriched with the instrument's ticker and name. -/
theorem cancelOrder_state_machine (env : Env) (ledger : List Order) (orderId userId : Nat) :
    (findOrderById ledger orderId = none →
      ∃ msg, cancelOrder env ledger orderId userId =
        Except.error (ExecError.notFound msg)) ∧
    (∀ o, findOrderById ledger orderId = some o → o.userId ≠ userId →
      cancelOrder env ledger orderId userId =
        Except.error (ExecError.businessRule "Order not found or not owned by user")) ∧
    (∀ o, findOrderById ledger orderId = some o → o.userId = userId →
      o.status ≠ OrderStatus.NEW →
      cancelOrder env ledger orderId userId =
        Except.error (ExecError.businessRule
          ("Only NEW orders can be cancelled. Current status: " ++ statusLabel o.status))) ∧
    (∀ o instrument, findOrderById ledger orderId = some o → o.userId = userId →
      o.status = OrderStatus.NEW →
      findInstrumentById env o.instrumentId = some instrument →
      cancelOrder env ledger orderId userId =
        Except.ok (ledger.map (fun x =>
            if x.id = orderId then { x with status := OrderStatus.CANCELLED } else x),
          { order := { o with status := OrderStatus.CANCELLED },
            ticker := instrument.ticker, name := instrument.name,
            totalAmount := roundTo2 ((o.size : ℚ) * o.price) })) := by
  refine ⟨?_, ?_, ?_, ?_⟩
  · intro h
    exact ⟨"Order with ID " ++ toString orderId ++ " not found", by simp [cancelOrder, h]⟩
  · intro o ho hne
    simp [cancelOrder, ho, hne]
  · intro o ho hown hst
    simp [cancelOrder, ho, hown, hst]
  · intro o instrument ho hown hst hinstr
    simp [cancelOrder, ho, hown, hst, hinstr]

/-- C6 witness: cancelling a concrete NEW LIMIT order owned by the caller
updates its status to CANCELLED and returns it enriched with the
instrument's ticker and name and totalAmount 3 × 50 = 150. -/
theorem cancelOrder_state_machine_witness :
    cancelOrder ⟨[1], [(2, ⟨"METR", "Metrogas"⟩)], []⟩
        [⟨5, 2, 1, 3, 50, OrderType.LIMIT, Side.BUY, OrderStatus.NEW, 0⟩] 5 1 =
      Except.ok ([⟨5, 2, 1, 3, 50, OrderType.LIMIT, Side.BUY, OrderStatus.CANCELLED, 0⟩],
        ⟨⟨5, 2, 1, 3, 50, OrderType.LIMIT, Side.BUY, OrderStatus.CANCELLED, 0⟩,
          "METR", "Metrogas", 150⟩) := by
  have h := (cancelOrder_state_machine ⟨[1], [(2, ⟨"METR", "Metrogas"⟩)], []⟩
      [⟨5, 2, 1, 3, 50, OrderType.LIMIT, Side.BUY, OrderStatus.NEW, 0⟩] 5 1).2.2.2
    ⟨5, 2, 1, 3, 50, OrderType.LIMIT, Side.BUY, OrderStatus.NEW, 0⟩ ⟨"METR", "Metrogas"⟩
    (by with_unfolding_all rfl) rfl rfl (by with_unfolding_all rfl)
  rw [h]
  with_unfolding_all rfl

/-- Applying one order to the replay map updates exactly the entry of the
order's instrument (creating it from the empty position on first touch). -/
theorem assocLookup_applyOrderToMap (m : List (Nat × PosCalc)) (o : Order) (i : Nat) :
    assocLookup (applyOrderToMap m o) i =
      if i = o.instrumentId then
        some (applyOrderToPosition ((assocLookup m i).getD (emptyPos i)) o)
      else assocLookup m i := by
  induction m with
  | nil =>
    by_cases h : i = o.instrumentId
    · subst h
      simp [applyOrderToMap, assocLookup]
    · simp [applyOrderToMap, assocLookup, h, Ne.symm h]
  | cons hd tl ih =>
    obtain ⟨j, p⟩ := hd
    by_cases hj : j = o.instrumentId
    · subst hj
      by_cases hij : i = o.instrumentId
      · subst hij
        simp [applyOrderToMap, assocLookup]
      · simp [applyOrderToMap, assocLookup, hij, Ne.symm hij]
    · by_cases hji : j = i
      · subst hji
        have hio : ¬ j = o.instrumentId := hj
        simp [applyOrderToMap, assocLookup, hj, Ne.symm hj]
      · simp [applyOrderToMap, assocLookup, hj, hji, ih]

/-- The entry of instrument `i` after folding the whole order list is the
fold of the per-position step over the orders of that instrument. -/
theorem assocLookup_foldl (orders : List Order) (m : List (Nat × PosCalc)) (i : Nat) :
    (assocLookup (orders.foldl applyOrderToMap m) i).getD (emptyPos i) =
      (orders.filter (fun o => o.instrumentId == i)).foldl applyOrderToPosition
        ((assocLookup m i).getD (emptyPos i)) := by
  induction orders generalizing m with
  | nil => simp
  | cons o os ih =>
    rw [List.foldl_cons, ih]
    by_cases h : o.instrumentId = i
    · rw [List.filter_cons_of_pos (by simp [h]), List.foldl_cons]
      rw [assocLookup_applyOrderToMap, if_pos h.symm]
      simp [h]
    · rw [List.filter_cons_of_neg (by simp [h])]
      rw [assocLookup_applyOrderToMap, if_neg (fun hh => h hh.symm)]

/-- The replay map has an entry for `i` as soon as some order touches
instrument `i` or the entry already existed. -/
theorem assocLookup_foldl_isSome (orders : List Order) (m : List (Nat × PosCalc)) (i : Nat)
    (h : (∃ o ∈ orders, o.instrumentId = i) ∨ (assocLookup m i).isSome = true) :
    (assocLookup (orders.foldl applyOrderToMap m) i).isSome = true := by
  induction orders generalizing m with
  | nil =>
    rcases h with ⟨o, ho, _⟩ | h
    · cases ho
    · exact h
  | cons o os ih =>
    rw [List.foldl_cons]
    rcases h with ⟨o2, ho2, hio⟩ | h
    · rcases List.mem_cons.mp ho2 with rfl | hmem
      · refine ih _ (Or.inr ?_)
        rw [assocLookup_applyOrderToMap, if_pos hio.symm]
        rfl
      · exact ih _ (Or.inl ⟨o2, hmem, hio⟩)
    · refine ih _ (Or.inr ?_)
      rw [assocLookup_applyOrderToMap]
      by_cases hio : i = o.instrumentId
      · rw [if_pos hio]; rfl
      · rw [if_neg hio]; exact h

/-- When no order touches instrument `i`, its entry is unchanged by the
fold. -/
theorem assocLookup_foldl_untouched (orders : List Order) (m : List (Nat × PosCalc)) (i : Nat)
    (h : ∀ o ∈ orders, o.instrumentId ≠ i) :
    assocLookup (orders.foldl applyOrderToMap m) i = assocLookup m i := by
  induction orders generalizing m with
  | nil => rfl
  | cons o os ih =>
    rw [List.foldl_cons, ih _ (fun o2 ho2 => h o2 (List.mem_cons_of_mem _ ho2)),
        assocLookup_applyOrderToMap,
        if_neg (fun hh => h o (List.mem_cons_self o os) hh.symm)]

/-- Applying one order either keeps the key list or appends the order's
instrument as a fresh key. -/
theorem keys_applyOrderToMap (m : List (Nat × PosCalc)) (o : Order) :
    (applyOrderToMap m o).map Prod.fst =
      if o.instrumentId ∈ m.map Prod.fst then m.map Prod.fst
      else m.map Prod.fst ++ [o.instrumentId] := by
  induction m with
  | nil => simp [applyOrderToMap]
  | cons hd tl ih =>
    obtain ⟨j, p⟩ := hd
    by_cases hj : j = o.instrumentId
    · subst hj
      simp [applyOrderToMap]
    · by_cases hm : o.instrumentId ∈ tl.map Prod.fst
      · simp [applyOrderToMap, hj, ih, hm, Ne.symm hj]
      · simp [applyOrderToMap, hj, ih, hm, Ne.symm hj]

/-- The replay map keeps its keys duplicate-free. -/
theorem nodup_keys_foldl (orders : List Order) (m : List (Nat × PosCalc))
    (hm : (m.map Prod.fst).Nodup) :
    ((orders.foldl applyOrderToMap m).map Prod.fst).Nodup := by
  induction orders generalizing m with
  | nil => exact hm
  | cons o os ih =>
    rw [List.foldl_cons]
    refine ih _ ?_
    rw [keys_applyOrderToMap]
    by_cases h : o.instrumentId ∈ m.map Prod.fst
    · simpa [h] using hm
    · rw [if_neg h]
      simp [List.nodup_append, hm, h]

/-- In a map with duplicate-free keys, membership determines the lookup. -/
theorem assocLookup_eq_some_of_mem (m : List (Nat × PosCalc)) (i : Nat) (p : PosCalc)
    (hnd : (m.map Prod.fst).Nodup) (hm : (i, p) ∈ m) : assocLookup m i = some p := by
  induction m with
  | nil => cases hm
  | cons hd tl ih =>
    obtain ⟨j, q⟩ := hd
    have hnd2 : j ∉ tl.map Prod.fst ∧ (tl.map Prod.fst).Nodup := by
      simpa [List.nodup_cons] using hnd
    rcases List.mem_cons.mp hm with h | h
    · cases h
      simp [assocLookup]
    · have hj : j ≠ i := by
        intro hji
        subst hji
        exact hnd2.1 (List.mem_map_of_mem Prod.fst h)
      simp [assocLookup, hj, ih hnd2.2 h]

/-- A successful lookup comes from a member of the map. -/
theorem mem_of_assocLookup_eq_some (m : List (Nat × PosCalc)) (i : Nat) (p : PosCalc)
    (h : assocLookup m i = some p) : (i, p) ∈ m := by
  induction m with
  | nil => cases h
  | cons hd tl ih =>
    obtain ⟨j, q⟩ := hd
    by_cases hj : j = i
    · subst hj
      simp only [assocLookup, if_true, eq_self_iff_true, Option.some.injEq] at h
      cases h
      exact List.mem_cons_self _ _
    · simp only [assocLookup, if_neg hj] at h
      exact List.mem_cons_of_mem _ (ih h)

/-- Membership in the result of `calculatePositions` is exactly: some
order touches the instrument, the entry is the replay fold of that
instrument's orders, and the replayed quantity is strictly positive. -/
theorem calculatePositions_mem (orders : List Order) (i : Nat) (p : PosCalc) :
    (i, p) ∈ calculatePositions orders ↔
      ((∃ o ∈ orders, o.instrumentId = i) ∧
        p = replayInstrument i orders ∧ 0 < p.quantity) := by
  unfold calculatePositions
  constructor
  · intro hmem
    have h1 := List.mem_filter.mp hmem
    have hpos : 0 < p.quantity := by
      have := h1.2
      simpa using this
    have hlook : assocLookup (orders.foldl applyOrderToMap []) i = some p :=
      assocLookup_eq_some_of_mem _ _ _ (nodup_keys_foldl orders [] (by simp)) h1.1
    have htouch : ∃ o ∈ orders, o.instrumentId = i := by
      by_contra hno
      push_neg at hno
      rw [assocLookup_foldl_untouched orders [] i hno] at hlook
      cases hlook
    have hrep : p = replayInstrument i orders := by
      have h2 := assocLookup_foldl orders [] i
      rw [hlook] at h2
      simp only [Option.getD_some] at h2
      unfold replayInstrument
      simpa [assocLookup] using h2
    exact ⟨htouch, hrep, hpos⟩
  · rintro ⟨htouch, hrep, hpos⟩
    have hsome := assocLookup_foldl_isSome orders [] i (Or.inl htouch)
    obtain ⟨q, hq⟩ := Option.isSome_iff_exists.mp hsome
    have hqp : q = p := by
      have h2 := assocLookup_foldl orders [] i
      rw [hq] at h2
      simp only [Option.getD_some] at h2
      rw [hrep]
      unfold replayInstrument
      simpa [assocLookup] using h2
    subst hqp
    refine List.mem_filter.mpr ⟨mem_of_assocLookup_eq_some _ _ _ hq, by simpa using hpos⟩

/-- C3: for a replayed order sequence, the derived position of an
instrument is the per-instrument fold (BUY adds size and size × price;
SELL from quantity 0 is skipped; SELL otherwise removes size shares at the
moving average cost, which preserves the average cost per remaining share
under a partial sell), and an instrument whose replayed quantity is
exactly 0 does not appear in the result. -/
theorem calculatePositions_replay_spec (orders : List Order) (i : Nat) :
    (∀ p : PosCalc, (i, p) ∈ calculatePositions orders →
      p = replayInstrument i orders ∧ 0 < p.quantity) ∧
    ((replayInstrument i orders).quantity = 0 →
      ∀ p, (i, p) ∉ calculatePositions orders) ∧
    (∀ o ∈ orders, o.instrumentId = i → 0 < (replayInstrument i orders).quantity →
      (i, replayInstrument i orders) ∈ calculatePositions orders) ∧
    (∀ (p : PosCalc) (o : Order), o.side = Side.SELL → p.quantity = 0 →
      applyOrderToPosition p o = p) ∧
    (∀ (p : PosCalc) (o : Order), o.side = Side.SELL → 0 < p.quantity →
      o.size < p.quantity →
      (applyOrderToPosition p o).quantity = p.quantity - o.size ∧
      (applyOrderToPosition p o).totalCost / ((applyOrderToPosition p o).quantity : ℚ) =
        p.totalCost / (p.quantity : ℚ)) := by
  refine ⟨?_, ?_, ?_, ?_, ?_⟩
  · intro p hmem
    exact ((calculatePositions_mem orders i p).mp hmem).2
  · intro hz p hmem
    obtain ⟨_, hrep, hpos⟩ := (calculatePositions_mem orders i p).mp hmem
    rw [hrep] at hpos
    omega
  · intro o ho hio hpos
    exact (calculatePositions_mem orders i _).mpr ⟨⟨o, ho, hio⟩, rfl, hpos⟩
  · intro p o hsell hz
    simp [applyOrderToPosition, hsell, hz]
  · intro p o hsell hq hlt
    have hqne : p.quantity ≠ 0 := by omega
    have happ : applyOrderToPosition p o =
        { p with quantity := p.quantity - o.size,
                 totalCost := p.totalCost -
                   (o.size : ℚ) * (p.totalCost / (p.quantity : ℚ)) } := by
      simp [applyOrderToPosition, hsell, hqne]
    have hq0 : (p.quantity : ℚ) ≠ 0 := by exact_mod_cast hqne
    have hqs : ((p.quantity : ℚ)) - (o.size : ℚ) ≠ 0 :=
      sub_ne_zero.mpr (by exact_mod_cast hlt.ne')
    refine ⟨by rw [happ], ?_⟩
    rw [happ]
    push_cast
    field_simp
    ring

/-- C3 witness: BUY 10 @ 100 then SELL 4 @ 120 replays to quantity 6 and
totalCost 600 (average buy price 100 unchanged by the partial sell), and
the position appears in the computed map. -/
theorem calculatePositions_replay_spec_witness :
    (2, replayInstrument 2
        [⟨1, 2, 1, 10, 100, OrderType.MARKET, Side.BUY, OrderStatus.FILLED, 0⟩,
         ⟨2, 2, 1, 4, 120, OrderType.MARKET, Side.SELL, OrderStatus.FILLED, 1⟩]) ∈
      calculatePositions
        [⟨1, 2, 1, 10, 100, OrderType.MARKET, Side.BUY, OrderStatus.FILLED, 0⟩,
         ⟨2, 2, 1, 4, 120, OrderType.MARKET, Side.SELL, OrderStatus.FILLED, 1⟩] ∧
    replayInstrument 2
        [⟨1, 2, 1, 10, 100, OrderType.MARKET, Side.BUY, OrderStatus.FILLED, 0⟩,
         ⟨2, 2, 1, 4, 120, OrderType.MARKET, Side.SELL, OrderStatus.FILLED, 1⟩] =
      ⟨2, 6, 600⟩ :=
  ⟨(calculatePositions_replay_spec
      [⟨1, 2, 1, 10, 100, OrderType.MARKET, Side.BUY, OrderStatus.FILLED, 0⟩,
       ⟨2, 2, 1, 4, 120, OrderType.MARKET, Side.SELL, OrderStatus.FILLED, 1⟩] 2).2.2.1
    ⟨1, 2, 1, 10, 100, OrderType.MARKET, Side.BUY, OrderStatus.FILLED, 0⟩
    (List.mem_cons_self _ _) rfl (by with_unfolding_all decide),
   by with_unfolding_all rfl⟩

/-- C10: every position returned by `getUserPortfolio` has quantity
strictly greater than 0, and its quantity is the replayed net quantity of
its instrument — so every history whose replayed quantity is less than or
equal to 0 (the over-sold negative case included, not only exactly 0) is
silently excluded from the result. -/
theorem portfolio_positions_positive (env : Env) (ledger : List Order) (userId : Nat)
    (pf : Portfolio) (h : getUserPortfolio env ledger userId = Except.ok pf) :
    ∀ pos ∈ pf.positions, 0 < pos.quantity ∧
      pos.quantity = (replayInstrument pos.instrumentId
        ((getFilledOrdersByUserId ledger userId).filter
          (fun o => o.instrumentId != ARS_INSTRUMENT_ID))).quantity := by
  cases hfu : findUserById env userId with
  | false => simp [getUserPortfolio, hfu] at h
  | true =>
    by_cases hpc : calculatePositions
        ((getFilledOrdersByUserId ledger userId).filter
          (fun o => o.instrumentId != ARS_INSTRUMENT_ID)) = []
    · simp only [getUserPortfolio, hfu, Bool.true_eq_false, if_false, ite_false, hpc,
        if_pos rfl, ite_true, if_true, Except.ok.injEq] at h
      intro pos hpos
      rw [← h] at hpos
      cases hpos
    · simp only [getUserPortfolio, hfu, Bool.true_eq_false, if_false, ite_false, hpc,
        if_neg hpc, Except.ok.injEq] at h
      intro pos hpos
      rw [← h] at hpos
      have hpos2 : pos ∈
          ((calculatePositions
            ((getFilledOrdersByUserId ledger userId).filter
              (fun o => o.instrumentId != ARS_INSTRUMENT_ID))).filterMap (fun x =>
            match getLatestMarketDataForInstrument env x.1, findInstrumentById env x.1 with
            | some md, some instrument => some (enrichPosition md instrument x.1 x.2)
            | _, _ => none)) := by
        have hperm := List.perm_insertionSort byMarketValueDesc
          ((calculatePositions
            ((getFilledOrdersByUserId ledger userId).filter
              (fun o => o.instrumentId != ARS_INSTRUMENT_ID))).filterMap (fun x =>
            match getLatestMarketDataForInstrument env x.1, findInstrumentById env x.1 with
            | some md, some instrument => some (enrichPosition md instrument x.1 x.2)
            | _, _ => none))
        exact hperm.mem_iff.mp hpos
      obtain ⟨x, hx, hfx⟩ := List.mem_filterMap.mp hpos2
      obtain ⟨i, pc⟩ := x
      obtain ⟨htouch, hrep, hq⟩ := (calculatePositions_mem _ i pc).mp hx
      cases hmd : getLatestMarketDataForInstrument env i with
      | none => rw [hmd] at hfx; cases hfx
      | some md =>
        cases hins : findInstrumentById env i with
        | none => rw [hmd, hins] at hfx; cases hfx
        | some instrument =>
          rw [hmd, hins] at hfx
          have hpe : enrichPosition md instrument i pc = pos := by
            simpa using hfx
          have hq2 : pos.quantity = pc.quantity := by
            rw [← hpe]
            simp [enrichPosition]
          have hi2 : pos.instrumentId = i := by
            rw [← hpe]
            simp [enrichPosition]
          refine ⟨by rw [hq2]; exact hq, ?_⟩
          rw [hq2, hi2, hrep]

/-- C10 witness: a concrete over-sold history (BUY 5 then SELL 5 then a
data-inconsistent extra SELL 3 replays to a non-positive quantity) yields
a portfolio whose every position has a strictly positive quantity — here
the positions list is empty. -/
theorem portfolio_positions_positive_witness :
    getUserPortfolio ⟨[1], [(2, ⟨"METR", "Metrogas"⟩)], [(2, ⟨120, 110⟩)]⟩
        [⟨1, 66, 1, 1000, 1, OrderType.MARKET, Side.CASH_IN, OrderStatus.FILLED, 0⟩,
         ⟨2, 2, 1, 5, 100, OrderType.MARKET, Side.BUY, OrderStatus.FILLED, 1⟩,
         ⟨3, 2, 1, 5, 120, OrderType.MARKET, Side.SELL, OrderStatus.FILLED, 2⟩,
         ⟨4, 2, 1, 3, 120, OrderType.MARKET, Side.SELL, OrderStatus.FILLED, 3⟩] 1 =
      Except.ok ⟨1, 1460, 1460, []⟩ ∧
    ∀ pos ∈ ([] : List Position), 0 < pos.quantity ∧
      pos.quantity = (replayInstrument pos.instrumentId
        ((getFilledOrdersByUserId
          [⟨1, 66, 1, 1000, 1, OrderType.MARKET, Side.CASH_IN, OrderStatus.FILLED, 0⟩,
           ⟨2, 2, 1, 5, 100, OrderType.MARKET, Side.BUY, OrderStatus.FILLED, 1⟩,
           ⟨3, 2, 1, 5, 120, OrderType.MARKET, Side.SELL, OrderStatus.FILLED, 2⟩,
           ⟨4, 2, 1, 3, 120, OrderType.MARKET, Side.SELL, OrderStatus.FILLED, 3⟩] 1).filter
          (fun o => o.instrumentId != ARS_INSTRUMENT_ID))).quantity := by
  have hok : getUserPortfolio ⟨[1], [(2, ⟨"METR", "Metrogas"⟩)], [(2, ⟨120, 110⟩)]⟩
      [⟨1, 66, 1, 1000, 1, OrderType.MARKET, Side.CASH_IN, OrderStatus.FILLED, 0⟩,
       ⟨2, 2, 1, 5, 100, OrderType.MARKET, Side.BUY, OrderStatus.FILLED, 1⟩,
       ⟨3, 2, 1, 5, 120, OrderType.MARKET, Side.SELL, OrderStatus.FILLED, 2⟩,
       ⟨4, 2, 1, 3, 120, OrderType.MARKET, Side.SELL, OrderStatus.FILLED, 3⟩] 1 =
      Except.ok ⟨1, 1460, 1460, []⟩ := by
    with_unfolding_all rfl
  refine ⟨hok, ?_⟩
  have h2 := portfolio_positions_positive
    ⟨[1], [(2, ⟨"METR", "Metrogas"⟩)], [(2, ⟨120, 110⟩)]⟩
    [⟨1, 66, 1, 1000, 1, OrderType.MARKET, Side.CASH_IN, OrderStatus.FILLED, 0⟩,
     ⟨2, 2, 1, 5, 100, OrderType.MARKET, Side.BUY, OrderStatus.FILLED, 1⟩,
     ⟨3, 2, 1, 5, 120, OrderType.MARKET, Side.SELL, OrderStatus.FILLED, 2⟩,
     ⟨4, 2, 1, 3, 120, OrderType.MARKET, Side.SELL, OrderStatus.FILLED, 3⟩] 1
    ⟨1, 1460, 1460, []⟩ hok
  exact h2

/-- C7: with a limit between 1 and 200 the pagination query returns at
most min(limit, 200) rows, sorted by creation timestamp descending and all
matching the user/cursor filter; when more rows match than the limit, the
extra fetched row is dropped, `hasMore` is true and `nextCursor` is the
timestamp of the last returned row; otherwise `hasMore` is false,
`nextCursor` is null and all matching rows are returned. -/
theorem pagination_spec (ledger : List Order) (userId : Nat) (limit : Nat)
    (cursor : Option Nat) (hlow : 1 ≤ limit) (hhigh : limit ≤ 200) :
    (getOrdersByUserId ledger userId limit cursor).orders.length ≤ min limit 200 ∧
    List.Sorted byDatetimeDesc (getOrdersByUserId ledger userId limit cursor).orders ∧
    (∀ o ∈ (getOrdersByUserId ledger userId limit cursor).orders,
      pageFilter userId cursor o = true) ∧
    (limit < (ledger.filter (pageFilter userId cursor)).length →
      (getOrdersByUserId ledger userId limit cursor).hasMore = true ∧
      (getOrdersByUserId ledger userId limit cursor).orders.length = limit ∧
      ∃ last, (getOrdersByUserId ledger userId limit cursor).orders.getLast? = some last ∧
        (getOrdersByUserId ledger userId limit cursor).nextCursor = some last.datetime) ∧
    ((ledger.filter (pageFilter userId cursor)).length ≤ limit →
      (getOrdersByUserId ledger userId limit cursor).hasMore = false ∧
      (getOrdersByUserId ledger userId limit cursor).nextCursor = none ∧
      (getOrdersByUserId ledger userId limit cursor).orders.length =
        (ledger.filter (pageFilter userId cursor)).length) := by
  have hmin : min limit 200 = limit := Nat.min_eq_left hhigh
  set F := ledger.filter (pageFilter userId cursor) with hF
  set M := List.insertionSort byDatetimeDesc F with hMdef
  have hperm : List.Perm M F := List.perm_insertionSort byDatetimeDesc F
  have hlenM : M.length = F.length := hperm.length_eq
  have hsortM : List.Sorted byDatetimeDesc M := List.sorted_insertionSort byDatetimeDesc F
  have hmemF : ∀ o ∈ M, pageFilter userId cursor o = true := by
    intro o ho
    exact (List.mem_filter.mp (hperm.mem_iff.mp ho)).2
  have hrec : getOrdersByUserId ledger userId limit cursor =
      { orders := if limit < (M.take (limit + 1)).length then (M.take (limit + 1)).dropLast
                  else M.take (limit + 1),
        nextCursor := if limit < (M.take (limit + 1)).length ∧
            (if limit < (M.take (limit + 1)).length then (M.take (limit + 1)).dropLast
             else M.take (limit + 1)) ≠ [] then
            (if limit < (M.take (limit + 1)).length then (M.take (limit + 1)).dropLast
             else M.take (limit + 1)).getLast?.map Order.datetime
          else none,
        hasMore := decide (limit < (M.take (limit + 1)).length) } := by
    simp only [getOrdersByUserId, hmin, hMdef, hF]
  rw [hrec]
  by_cases hcase : limit < F.length
  · have htake : (M.take (limit + 1)).length = limit + 1 := by
      rw [List.length_take, hlenM]
      omega
    have hlt : limit < (M.take (limit + 1)).length := by omega
    have hlen_orders : ((M.take (limit + 1)).dropLast).length = limit := by
      rw [List.length_dropLast, htake]
      omega
    have hne : (M.take (limit + 1)).dropLast ≠ [] := by
      intro hnil
      rw [hnil] at hlen_orders
      simp at hlen_orders
      omega
    have hsub : (M.take (limit + 1)).dropLast.Sublist M :=
      (List.dropLast_sublist _).trans (List.take_sublist _ _)
    have hand : limit < (M.take (limit + 1)).length ∧
        (if limit < (M.take (limit + 1)).length then (M.take (limit + 1)).dropLast
         else M.take (limit + 1)) ≠ [] := by
      rw [if_pos hlt]
      exact ⟨hlt, hne⟩
    refine ⟨?_, ?_, ?_, ?_, ?_⟩
    · rw [if_pos hlt, hlen_orders, hmin]
    · rw [if_pos hlt]
      exact hsortM.sublist hsub
    · rw [if_pos hlt]
      intro o ho
      exact hmemF o (hsub.subset ho)
    · intro _
      obtain ⟨last, hlast⟩ :=
        Option.isSome_iff_exists.mp (List.getLast?_isSome.mpr hne)
      refine ⟨decide_eq_true hlt, by rw [if_pos hlt, hlen_orders], last, ?_, ?_⟩
      · rw [if_pos hlt]
        exact hlast
      · rw [if_pos hand, if_pos hlt, hlast]
        rfl
    · intro hle
      omega
  · have htakeM : M.take (limit + 1) = M := by
      apply List.take_of_length_le
      omega
    have hnlt : ¬ limit < (M.take (limit + 1)).length := by
      rw [htakeM, hlenM]
      omega
    have hnand : ¬ (limit < (M.take (limit + 1)).length ∧
        (if limit < (M.take (limit + 1)).length then (M.take (limit + 1)).dropLast
         else M.take (limit + 1)) ≠ []) := fun hand2 => hnlt hand2.1
    refine ⟨?_, ?_, ?_, ?_, ?_⟩
    · rw [if_neg hnlt, htakeM, hlenM, hmin]
      omega
    · rw [if_neg hnlt, htakeM]
      exact hsortM
    · rw [if_neg hnlt, htakeM]
      exact hmemF
    · intro hlt2
      exact absurd hlt2 hcase
    · intro _
      exact ⟨decide_eq_false hnlt, by rw [if_neg hnand],
        by rw [if_neg hnlt, htakeM, hlenM]⟩

/-- C7 witness: three matching rows with limit 2 return the two newest
rows in descending timestamp order with `hasMore` true and `nextCursor`
the timestamp of the last returned row. -/
theorem pagination_spec_witness :
    (getOrdersByUserId
        [⟨1, 66, 1, 10, 1, OrderType.MARKET, Side.CASH_IN, OrderStatus.FILLED, 5⟩,
         ⟨2, 66, 1, 20, 1, OrderType.MARKET, Side.CASH_IN, OrderStatus.FILLED, 7⟩,
         ⟨3, 66, 1, 30, 1, OrderType.MARKET, Side.CASH_IN, OrderStatus.FILLED, 9⟩]
        1 2 none).orders.length ≤ min 2 200 ∧
    List.Sorted byDatetimeDesc
      (getOrdersByUserId
        [⟨1, 66, 1, 10, 1, OrderType.MARKET, Side.CASH_IN, OrderStatus.FILLED, 5⟩,
         ⟨2, 66, 1, 20, 1, OrderType.MARKET, Side.CASH_IN, OrderStatus.FILLED, 7⟩,
         ⟨3, 66, 1, 30, 1, OrderType.MARKET, Side.CASH_IN, OrderStatus.FILLED, 9⟩]
        1 2 none).orders ∧
    (∀ o ∈ (getOrdersByUserId
        [⟨1, 66, 1, 10, 1, OrderType.MARKET, Side.CASH_IN, OrderStatus.FILLED, 5⟩,
         ⟨2, 66, 1, 20, 1, OrderType.MARKET, Side.CASH_IN, OrderStatus.FILLED, 7⟩,
         ⟨3, 66, 1, 30, 1, OrderType.MARKET, Side.CASH_IN, OrderStatus.FILLED, 9⟩]
        1 2 none).orders,
      pageFilter 1 none o = true) ∧
    (2 < ([⟨1, 66, 1, 10, 1, OrderType.MARKET, Side.CASH_IN, OrderStatus.FILLED, 5⟩,
         ⟨2, 66, 1, 20, 1, OrderType.MARKET, Side.CASH_IN, OrderStatus.FILLED, 7⟩,
         ⟨3, 66, 1, 30, 1, OrderType.MARKET, Side.CASH_IN, OrderStatus.FILLED, 9⟩].filter
          (pageFilter 1 none)).length →
      (getOrdersByUserId
        [⟨1, 66, 1, 10, 1, OrderType.MARKET, Side.CASH_IN, OrderStatus.FILLED, 5⟩,
         ⟨2, 66, 1, 20, 1, OrderType.MARKET, Side.CASH_IN, OrderStatus.FILLED, 7⟩,
         ⟨3, 66, 1, 30, 1, OrderType.MARKET, Side.CASH_IN, OrderStatus.FILLED, 9⟩]
        1 2 none).hasMore = true ∧
      (getOrdersByUserId
        [⟨1, 66, 1, 10, 1, OrderType.MARKET, Side.CASH_IN, OrderStatus.FILLED, 5⟩,
         ⟨2, 66, 1, 20, 1, OrderType.MARKET, Side.CASH_IN, OrderStatus.FILLED, 7⟩,
         ⟨3, 66, 1, 30, 1, OrderType.MARKET, Side.CASH_IN, OrderStatus.FILLED, 9⟩]
        1 2 none).orders.length = 2 ∧
      ∃ last, (getOrdersByUserId
        [⟨1, 66, 1, 10, 1, OrderType.MARKET, Side.CASH_IN, OrderStatus.FILLED, 5⟩,
         ⟨2, 66, 1, 20, 1, OrderType.MARKET, Side.CASH_IN, OrderStatus.FILLED, 7⟩,
         ⟨3, 66, 1, 30, 1, OrderType.MARKET, Side.CASH_IN, OrderStatus.FILLED, 9⟩]
        1 2 none).orders.getLast? = some last ∧
        (getOrdersByUserId
        [⟨1, 66, 1, 10, 1, OrderType.MARKET, Side.CASH_IN, OrderStatus.FILLED, 5⟩,
         ⟨2, 66, 1, 20, 1, OrderType.MARKET, Side.CASH_IN, OrderStatus.FILLED, 7⟩,
         ⟨3, 66, 1, 30, 1, OrderType.MARKET, Side.CASH_IN, OrderStatus.FILLED, 9⟩]
        1 2 none).nextCursor = some last.datetime) ∧
    (([⟨1, 66, 1, 10, 1, OrderType.MARKET, Side.CASH_IN, OrderStatus.FILLED, 5⟩,
         ⟨2, 66, 1, 20, 1, OrderType.MARKET, Side.CASH_IN, OrderStatus.FILLED, 7⟩,
         ⟨3, 66, 1, 30, 1, OrderType.MARKET, Side.CASH_IN, OrderStatus.FILLED, 9⟩].filter
          (pageFilter 1 none)).length ≤ 2 →
      (getOrdersByUserId
        [⟨1, 66, 1, 10, 1, OrderType.MARKET, Side.CASH_IN, OrderStatus.FILLED, 5⟩,
         ⟨2, 66, 1, 20, 1, OrderType.MARKET, Side.CASH_IN, OrderStatus.FILLED, 7⟩,
         ⟨3, 66, 1, 30, 1, OrderType.MARKET, Side.CASH_IN, OrderStatus.FILLED, 9⟩]
        1 2 none).hasMore = false ∧
      (getOrdersByUserId
        [⟨1, 66, 1, 10, 1, OrderType.MARKET, Side.CASH_IN, OrderStatus.FILLED, 5⟩,
         ⟨2, 66, 1, 20, 1, OrderType.MARKET, Side.CASH_IN, OrderStatus.FILLED, 7⟩,
         ⟨3, 66, 1, 30, 1, OrderType.MARKET, Side.CASH_IN, OrderStatus.FILLED, 9⟩]
        1 2 none).nextCursor = none ∧
      (getOrdersByUserId
        [⟨1, 66, 1, 10, 1, OrderType.MARKET, Side.CASH_IN, OrderStatus.FILLED, 5⟩,
         ⟨2, 66, 1, 20, 1, OrderType.MARKET, Side.CASH_IN, OrderStatus.FILLED, 7⟩,
         ⟨3, 66, 1, 30, 1, OrderType.MARKET, Side.CASH_IN, OrderStatus.FILLED, 9⟩]
        1 2 none).orders.length =
        ([⟨1, 66, 1, 10, 1, OrderType.MARKET, Side.CASH_IN, OrderStatus.FILLED, 5⟩,
         ⟨2, 66, 1, 20, 1, OrderType.MARKET, Side.CASH_IN, OrderStatus.FILLED, 7⟩,
         ⟨3, 66, 1, 30, 1, OrderType.MARKET, Side.CASH_IN, OrderStatus.FILLED, 9⟩].filter
          (pageFilter 1 none)).length) :=
  pagination_spec
    [⟨1, 66, 1, 10, 1, OrderType.MARKET, Side.CASH_IN, OrderStatus.FILLED, 5⟩,
     ⟨2, 66, 1, 20, 1, OrderType.MARKET, Side.CASH_IN, OrderStatus.FILLED, 7⟩,
     ⟨3, 66, 1, 30, 1, OrderType.MARKET, Side.CASH_IN, OrderStatus.FILLED, 9⟩]
    1 2 none (by decide) (by decide)

end Cocos
